import Mathlib

/-!
Verification development for the books microservice (`src/books`).

The definitions below are a shallow embedding of the Python source:
`models.py` (pydantic request models and their validators), `main.py`
(the HTTP endpoint handlers), and the store/media-host collaborators
described by `database.py` and `utils/cloudinary_utils.py`.

Conventions of the embedding:
* Python `Decimal` values are pairs `(mant, exp)` with value
  `mant * 10 ^ exp`, matching `Decimal.as_tuple()` up to sign folding.
* The relational store is a list of committed rows; a request either
  commits a new row list or leaves the state untouched (SQLAlchemy
  sessions are closed without commit on every error path).
* Calls to the external media host are recorded in a trace
  (`List NetCall`); the host's answers are inputs (`Env`).
* The SQL `ORDER BY created_at DESC` of the list endpoint fixes the
  order only up to ties, so the list query is modelled as a relation
  (`listQueryResult`): any weakly sorted permutation of the filtered
  rows is an admissible answer.
-/

namespace Books

/-- Results of the handlers (`Except`) compare decidably, so that
concrete runs can be checked by evaluation. -/
instance {ε α : Type} [DecidableEq ε] [DecidableEq α] :
    DecidableEq (Except ε α) := fun a b =>
  match a, b with
  | .error e, .error f =>
    if h : e = f then isTrue (h ▸ rfl)
    else isFalse (fun hc => h (by injection hc))
  | .ok x, .ok y =>
    if h : x = y then isTrue (h ▸ rfl)
    else isFalse (fun hc => h (by injection hc))
  | .error _, .ok _ => isFalse (fun hc => by injection hc)
  | .ok _, .error _ => isFalse (fun hc => by injection hc)

/-- Characters treated as whitespace by Python `str.strip()` and the
regex `\s` (the ASCII range used by the service's text fields). -/
def isSpace (c : Char) : Bool :=
  c = ' ' || c = '\t' || c = '\n' || c = '\r' || c = '\x0b' || c = '\x0c'

/-- Drop leading whitespace characters. -/
def dropLeadingWS : List Char → List Char
  | [] => []
  | c :: cs => if isSpace c then dropLeadingWS cs else c :: cs

/-- Python `str.strip()`: drop leading and trailing whitespace. -/
def stripChars (l : List Char) : List Char :=
  (dropLeadingWS (dropLeadingWS l).reverse).reverse

/-- `re.sub(r"\s+", " ", v)`: collapse every maximal run of whitespace
characters to a single space. -/
def collapseChars : List Char → List Char
  | [] => []
  | [c] => if isSpace c then [' '] else [c]
  | c :: d :: cs =>
      if isSpace c then
        if isSpace d then collapseChars (d :: cs)
        else ' ' :: collapseChars (d :: cs)
      else c :: collapseChars (d :: cs)

/-- Python `str.strip()` on strings. -/
def pyStrip (s : String) : String := ⟨stripChars s.toList⟩

/-- The `normalize_space` transform from `models.py` on strings. -/
def collapseWS (s : String) : String := ⟨collapseChars s.toList⟩

/-- A single pydantic field error: field location and message. -/
structure FieldError where
  loc : String
  msg : String
deriving Repr, DecidableEq

/-- pydantic `NonEmptyStr` (strip_whitespace, min_length 1) followed by
the `normalize_space` field validator of `models.py`. -/
def validateText (fieldName : String) (s : String) : Except FieldError String :=
  if (pyStrip s).length = 0 then
    .error ⟨fieldName, "String should have at least 1 character"⟩
  else .ok (collapseWS (pyStrip s))

/-- Python `Decimal`: the value is `mant * 10 ^ exp`. -/
structure Dec where
  mant : Int
  exp : Int
deriving Repr, DecidableEq

/-- Rational value of a `Dec`. -/
def decVal (v : Dec) : ℚ := (v.mant : ℚ) * (10 : ℚ) ^ v.exp

/-- Round `n / d` (for `d > 0`) to the nearest integer, ties away from
zero: Python's `ROUND_HALF_UP`. -/
def halfUpDiv (n d : Int) : Int :=
  if 0 ≤ n then (n + d / 2) / d else -(((-n) + d / 2) / d)

/-- `Decimal.quantize(Decimal("0.01"), rounding=ROUND_HALF_UP)`. -/
def quantize2 (v : Dec) : Dec :=
  if -2 ≤ v.exp then ⟨v.mant * 10 ^ (v.exp + 2).toNat, -2⟩
  else ⟨halfUpDiv v.mant (10 ^ (-(v.exp + 2)).toNat), -2⟩

/-- `validate_price_precision` from `models.py`: reject more than two
decimal digits, then normalize to two digits half-up. -/
def validate_price_precision (v : Dec) : Except FieldError Dec :=
  if v.exp < -2 then
    .error ⟨"price", "Price cannot have more than 2 decimal places"⟩
  else .ok (quantize2 v)

/-- The full pydantic check of the `price` field: `Field(ge=0)` and then
`validate_price_precision`. -/
def checkPrice (v : Dec) : Except FieldError Dec :=
  if v.mant < 0 then
    .error ⟨"price", "Input should be greater than or equal to 0"⟩
  else validate_price_precision v

/-- Half-up rounding of a decimal value to exactly two fractional
digits, as the spec words it ("rounded half-up to 2 digits")
independently of the validator's code path. -/
def specHalfUpTo2 (v : Dec) : Dec :=
  if 0 ≤ v.exp + 2 then ⟨v.mant * 10 ^ (v.exp + 2).toNat, -2⟩
  else ⟨halfUpDiv v.mant (10 ^ (-(v.exp + 2)).toNat), -2⟩

/-- The fields of a create request body (`None` = absent). -/
structure CreateInput where
  title : Option String
  author : Option String
  description : Option String
  price : Option Dec
deriving Repr, DecidableEq

/-- A validated `BookRequest` (`models.py`). -/
structure BookData where
  title : String
  author : String
  description : String
  price : Dec
deriving Repr, DecidableEq

/-- Errors contributed by one field check. -/
def errsOf {α : Type} : Except FieldError α → List FieldError
  | .error e => [e]
  | .ok _ => []

/-- A required text field: pydantic rejects a missing value, otherwise
runs the `NonEmptyStr` pipeline. -/
def reqText (fieldName : String) : Option String → Except FieldError String
  | none => .error ⟨fieldName, "Field required"⟩
  | some s => validateText fieldName s

/-- The required `price` field of `BookRequest`. -/
def reqPrice : Option Dec → Except FieldError Dec
  | none => .error ⟨"price", "Field required"⟩
  | some v => checkPrice v

/-- `BookRequest(...)` from `models.py`: validates all four fields,
collecting one error per violated field (pydantic reports them all). -/
def mkBookRequest (i : CreateInput) : Except (List FieldError) BookData :=
  match reqText "title" i.title, reqText "author" i.author,
        reqText "description" i.description, reqPrice i.price with
  | .ok t, .ok a, .ok d, .ok p => .ok ⟨t, a, d, p⟩
  | t, a, d, p => .error (errsOf t ++ errsOf a ++ errsOf d ++ errsOf p)

/-- The fields of an update request body (`None` = absent). -/
structure UpdateInput where
  title : Option String
  author : Option String
  description : Option String
  price : Option Dec
deriving Repr, DecidableEq

/-- A validated `BookUpdateRequest` (`models.py`). -/
structure UpdateData where
  title : Option String
  author : Option String
  description : Option String
  price : Option Dec
deriving Repr, DecidableEq

/-- An optional text field of `BookUpdateRequest`. -/
def optText (fieldName : String) : Option String → Except FieldError (Option String)
  | none => .ok none
  | some s => (validateText fieldName s).map some

/-- The optional `price` field of `BookUpdateRequest`. -/
def optPrice : Option Dec → Except FieldError (Option Dec)
  | none => .ok none
  | some v => (checkPrice v).map some

/-- The `at_least_one_field` model validator's error. -/
def atLeastOneErr : FieldError := ⟨"__root__", "Provide at least one field to update"⟩

/-- `BookUpdateRequest(...)` from `models.py`: per-field validation
collecting all errors, then the `at_least_one_field` model validator. -/
def mkBookUpdateRequest (i : UpdateInput) : Except (List FieldError) UpdateData :=
  match optText "title" i.title, optText "author" i.author,
        optText "description" i.description, optPrice i.price with
  | .ok t, .ok a, .ok d, .ok p =>
      if t.isNone && a.isNone && d.isNone && p.isNone then .error [atLeastOneErr]
      else .ok ⟨t, a, d, p⟩
  | t, a, d, p => .error (errsOf t ++ errsOf a ++ errsOf d ++ errsOf p)

/-- Cloudinary image metadata (`models.py` `ImageData`). -/
structure ImageData where
  url : String
  public_id : String
deriving Repr, DecidableEq

/-- A row of the `books` table (`database.py`). -/
structure Book where
  id : Nat
  title : String
  author : String
  description : String
  price : Dec
  active : Bool
  image : Option ImageData
  created_at : Nat
  updated_at : Nat
deriving Repr, DecidableEq

/-- The committed state of the store, plus the id sequence and the
clock used for `func.now()`. -/
structure DBState where
  rows : List Book
  nextId : Nat
  now : Nat
deriving Repr, DecidableEq

/-- The rows matching the fixed filter `Book.active IS TRUE`. -/
def activeRows (db : DBState) : List Book :=
  db.rows.filter (fun b => b.active)

/-- `SELECT ... WHERE id = book_id AND active IS TRUE` with
`scalar_one_or_none` (id is the primary key). -/
def findActive (db : DBState) (book_id : Nat) : Option Book :=
  (db.rows.filter (fun b => b.id == book_id && b.active)).head?

/-- `UPDATE ... WHERE id = b.id` followed by commit: the row with the
book's primary key is replaced. -/
def commitRow (db : DBState) (b : Book) : DBState :=
  { db with rows := db.rows.map (fun r => if r.id = b.id then b else r) }

/-- A file sent with a request, as the handler sees it. -/
structure FileUpload where
  content_type : String
  size : Nat
deriving Repr, DecidableEq

/-- A call to the external media host. -/
inductive NetCall where
  | upload
  | destroy (public_id : String)
deriving Repr, DecidableEq

/-- Process configuration and the media host's answers
(`host_upload = none` models an upload call that fails). -/
structure Env where
  cloudinary_ready : Bool
  max_image_size : Nat
  allowed_image_types : List String
  host_upload : Option ImageData
  host_delete_ok : Bool
deriving Repr, DecidableEq

/-- An `HTTPException`: status code and detail string. -/
structure HTTPError where
  status : Nat
  detail : String
deriving Repr, DecidableEq

/-- `upload_image_to_cloudinary` from `main.py`: readiness, content
type and size are checked before the upload network call. -/
def upload_image_to_cloudinary (env : Env) (file : FileUpload) :
    Except HTTPError ImageData × List NetCall :=
  if !env.cloudinary_ready then (.error ⟨501, "Image upload not configured"⟩, [])
  else if !(env.allowed_image_types.contains file.content_type) then
    (.error ⟨400, "Invalid image type"⟩, [])
  else if env.max_image_size < file.size then
    (.error ⟨400, "Image size too large"⟩, [])
  else
    match env.host_upload with
    | some img => (.ok img, [.upload])
    | none => (.error ⟨500, "Failed to upload image"⟩, [.upload])

/-- `delete_image_from_cloudinary` (via `delete_cloudinary_image`):
best effort, never raises; no network call when unconfigured. -/
def delete_image_from_cloudinary (env : Env) (pid : String) : Bool × List NetCall :=
  if env.cloudinary_ready then (env.host_delete_ok, [.destroy pid]) else (false, [])

/-- Rendering of a pydantic error list as `str(e)`, used as the 422
`HTTPException` detail by the handlers. -/
def renderErrs (es : List FieldError) : String :=
  String.intercalate "; " (es.map (fun e => e.loc ++ ": " ++ e.msg))

/-- The body of a create request, by content type. -/
inductive CreateBody where
  | jsonBody (payload : CreateInput)
  | multipartBody (title author description : Option String)
      (price : Option Dec) (image : Option FileUpload)
  | otherBody
deriving Repr, DecidableEq

/-- The shared tail of `create_book`: build the `Book` row and commit
the insert. -/
def finishCreate (db : DBState) (bd : BookData) (img : Option ImageData)
    (tr : List NetCall) : Except HTTPError Book × DBState × List NetCall :=
  let book : Book :=
    { id := db.nextId
      title := pyStrip bd.title
      author := pyStrip bd.author
      description := pyStrip bd.description
      price := bd.price
      active := true
      image := img
      created_at := db.now
      updated_at := db.now }
  (.ok book, { db with rows := db.rows ++ [book], nextId := db.nextId + 1 }, tr)

/-- The JSON path of `POST /v1/books` (no file can arrive via JSON). -/
def create_book_json (db : DBState) (payload : CreateInput) :
    Except HTTPError Book × DBState × List NetCall :=
  match mkBookRequest payload with
  | .error es => (.error ⟨422, renderErrs es⟩, db, [])
  | .ok bd => finishCreate db bd none []

/-- The multipart form fields the handler treats as missing
(`v in (None, "")`). -/
def missingStr (v : Option String) : Bool := v = none || v = some ""

/-- The names of multipart form fields the create handler reports as
missing. -/
def missingCreateFields (t a d : Option String) (p : Option Dec) : List String :=
  (if missingStr t then ["title"] else []) ++
  (if missingStr a then ["author"] else []) ++
  (if missingStr d then ["description"] else []) ++
  (if p = none then ["price"] else [])

/-- The multipart path of `POST /v1/books`: explicit missing-field
check, pydantic validation, then the optional image upload. -/
def create_book_multipart (env : Env) (db : DBState)
    (t a d : Option String) (p : Option Dec) (img : Option FileUpload) :
    Except HTTPError Book × DBState × List NetCall :=
  if missingCreateFields t a d p ≠ [] then
    (.error ⟨422, "Missing required fields: " ++
      String.intercalate ", " (missingCreateFields t a d p)⟩, db, [])
  else
    match mkBookRequest ⟨t, a, d, p⟩ with
    | .error es => (.error ⟨422, renderErrs es⟩, db, [])
    | .ok bd =>
      match img with
      | none => finishCreate db bd none []
      | some f =>
        match upload_image_to_cloudinary env f with
        | (.error e, tr) => (.error e, db, tr)
        | (.ok imgData, tr) => finishCreate db bd (some imgData) tr

/-- `create_book` from `main.py`, dispatching on the content type. -/
def create_book (env : Env) (db : DBState) (body : CreateBody) :
    Except HTTPError Book × DBState × List NetCall :=
  match body with
  | .jsonBody payload => create_book_json db payload
  | .multipartBody t a d p img => create_book_multipart env db t a d p img
  | .otherBody =>
      (.error ⟨415, "Unsupported Media Type. Use application/json or multipart/form-data."⟩,
       db, [])

/-- `get_book` from `main.py` (`GET /v1/books/{id}`). -/
def get_book (db : DBState) (book_id : Nat) : Except HTTPError Book :=
  match findActive db book_id with
  | none => .error ⟨404, "Book not found"⟩
  | some b => .ok b

/-- Items weakly sorted by creation time descending: all the SQL
`ORDER BY created_at DESC` guarantees. -/
def sortedDesc (l : List Book) : Prop :=
  l.Pairwise (fun a b => b.created_at ≤ a.created_at)

/-- Newest-first ordering with ties broken by identifier descending, as
the spec words the ordering of `items`. -/
def specSortedDesc (l : List Book) : Prop :=
  l.Pairwise (fun a b =>
    b.created_at < a.created_at ∨ (b.created_at = a.created_at ∧ b.id < a.id))

/-- The possible answers of the list query in `get_books`
(`WHERE active ORDER BY created_at DESC LIMIT limit OFFSET offset`):
any weakly sorted permutation of the active rows, sliced. -/
def listQueryResult (db : DBState) (limit offset : Nat) (res : List Book) : Prop :=
  ∃ all : List Book, all.Perm (activeRows db) ∧ sortedDesc all ∧
    res = (all.drop offset).take limit

/-- The `BooksPage` response model (`PaginatedResponse`). -/
structure BooksPage where
  data : List Book
  total : Nat
  limit : Nat
  offset : Nat
deriving Repr, DecidableEq

/-- The page `get_books` returns once the query produced `res`: the
total is the count of active rows, independent of the window. -/
def get_books_page (db : DBState) (limit offset : Nat) (res : List Book) : BooksPage :=
  ⟨res, (activeRows db).length, limit, offset⟩

/-- The body of an update request, by content type. -/
inductive UpdateBody where
  | jsonBody (payload : UpdateInput) (remove_image : Bool)
  | multipartBody (title author description : Option String)
      (price : Option Dec) (image : Option FileUpload) (remove_image : Bool)
  | otherBody
deriving Repr, DecidableEq

/-- Commit of `update_book`: the row is written back (refreshing
`updated_at` via the `onupdate` trigger) only when it changed. -/
def commitUpdate (db : DBState) (old new : Book) (tr : List NetCall) :
    Except HTTPError Book × DBState × List NetCall :=
  let final := if new = old then old else { new with updated_at := db.now }
  (.ok final, commitRow db final, tr)

/-- `book.title = BookUpdateRequest(title=title).title` in the
multipart update path. -/
def setTitle (b : Book) : Option String → Except FieldError Book
  | none => .ok b
  | some s => (validateText "title" s).map (fun v => { b with title := v })

/-- `book.author = BookUpdateRequest(author=author).author`. -/
def setAuthor (b : Book) : Option String → Except FieldError Book
  | none => .ok b
  | some s => (validateText "author" s).map (fun v => { b with author := v })

/-- `book.description = BookUpdateRequest(description=description).description`. -/
def setDescription (b : Book) : Option String → Except FieldError Book
  | none => .ok b
  | some s => (validateText "description" s).map (fun v => { b with description := v })

/-- `book.price = BookUpdateRequest(price=...).price`. -/
def setPrice (b : Book) : Option Dec → Except FieldError Book
  | none => .ok b
  | some v => (checkPrice v).map (fun p => { b with price := p })

/-- The multipart update path's per-field application: each provided
field is validated on its own and applied in source order, stopping at
the first failing field (the handler's `ValueError` propagation). -/
def applyMultipartFields (b : Book) (t a d : Option String) (p : Option Dec) :
    Except FieldError Book :=
  match setTitle b t with
  | .error e => .error e
  | .ok b1 =>
    match setAuthor b1 a with
    | .error e => .error e
    | .ok b2 =>
      match setDescription b2 d with
      | .error e => .error e
      | .ok b3 => setPrice b3 p

/-- The best-effort purge of a record's current image (`if book.image:
delete old`): its media-host trace. -/
def oldImageTrace (env : Env) (b : Book) : List NetCall :=
  match b.image with
  | some old => (delete_image_from_cloudinary env old.public_id).2
  | none => []

/-- The image step of the multipart update path: `remove_image` wins
when an image exists; otherwise a provided file replaces the image
(purging the old one, best effort, before validating the new one). -/
def multipartImageStep (env : Env) (db : DBState) (book b1 : Book)
    (img : Option FileUpload) (rm : Bool) :
    Except HTTPError Book × DBState × List NetCall :=
  match rm, b1.image with
  | true, some old =>
      commitUpdate db book { b1 with image := none }
        (delete_image_from_cloudinary env old.public_id).2
  | _, _ =>
    match img with
    | none => commitUpdate db book b1 []
    | some f =>
      match upload_image_to_cloudinary env f with
      | (.error e, trUp) => (.error e, db, oldImageTrace env b1 ++ trUp)
      | (.ok newImg, trUp) =>
          commitUpdate db book { b1 with image := some newImg }
            (oldImageTrace env b1 ++ trUp)

/-- The JSON path of `PUT /v1/books/{id}`: whole-body validation via
`BookUpdateRequest`, then the present fields are applied and an
optional `remove_image` flag clears the image. -/
def update_book_json (env : Env) (db : DBState) (book : Book)
    (payload : UpdateInput) (rm : Bool) :
    Except HTTPError Book × DBState × List NetCall :=
  match mkBookUpdateRequest payload with
  | .error es => (.error ⟨422, renderErrs es⟩, db, [])
  | .ok u =>
    let b1 : Book :=
      { book with
        title := match u.title with | some t => pyStrip t | none => book.title
        author := match u.author with | some a => pyStrip a | none => book.author
        description :=
          match u.description with | some d => pyStrip d | none => book.description
        price := u.price.getD book.price }
    match rm, b1.image with
    | true, some old =>
        commitUpdate db book { b1 with image := none }
          (delete_image_from_cloudinary env old.public_id).2
    | _, _ => commitUpdate db book b1 []

/-- The multipart path of `PUT /v1/books/{id}`. -/
def update_book_multipart (env : Env) (db : DBState) (book : Book)
    (t a d : Option String) (p : Option Dec) (img : Option FileUpload) (rm : Bool) :
    Except HTTPError Book × DBState × List NetCall :=
  match applyMultipartFields book t a d p with
  | .error e => (.error ⟨422, renderErrs [e]⟩, db, [])
  | .ok b1 => multipartImageStep env db book b1 img rm

/-- `update_book` from `main.py`: resolve the active record, then
dispatch on the content type. -/
def update_book (env : Env) (db : DBState) (book_id : Nat) (body : UpdateBody) :
    Except HTTPError Book × DBState × List NetCall :=
  match findActive db book_id with
  | none => (.error ⟨404, "Book not found"⟩, db, [])
  | some book =>
    match body with
    | .jsonBody payload rm => update_book_json env db book payload rm
    | .multipartBody t a d p img rm => update_book_multipart env db book t a d p img rm
    | .otherBody =>
        (.error ⟨415, "Unsupported Media Type. Use application/json or multipart/form-data."⟩,
         db, [])

/-- `delete_book` from `main.py`: best-effort image purge, then the
soft delete (`active := false`) is committed. -/
def delete_book (env : Env) (db : DBState) (book_id : Nat) :
    Except HTTPError String × DBState × List NetCall :=
  match findActive db book_id with
  | none => (.error ⟨404, "Book not found"⟩, db, [])
  | some book =>
    (.ok ("Book with ID " ++ toString book.id ++ " was deleted successfully"),
     commitRow db { book with active := false, updated_at := db.now },
     oldImageTrace env book)

/-- `upload_book_image` from `main.py` (`POST /v1/books/{id}/image`):
the old image is purged (best effort) before the new file is validated
and uploaded. -/
def upload_book_image (env : Env) (db : DBState) (book_id : Nat) (file : FileUpload) :
    Except HTTPError ImageData × DBState × List NetCall :=
  match findActive db book_id with
  | none => (.error ⟨404, "Book not found"⟩, db, [])
  | some book =>
    match upload_image_to_cloudinary env file with
    | (.error e, trUp) => (.error e, db, oldImageTrace env book ++ trUp)
    | (.ok img, trUp) =>
      (.ok img,
       commitRow db { book with image := some img, updated_at := db.now },
       oldImageTrace env book ++ trUp)

/-- The `details` member of an error body. -/
inductive ErrDetails where
  | emptyDetails
  | validationErrors (errs : List FieldError)
deriving Repr, DecidableEq

/-- Whether a `details` object carries `validation_errors`. -/
def hasValidationErrors : ErrDetails → Bool
  | .validationErrors _ => true
  | .emptyDetails => false

/-- The structured error body `(error, details)`. -/
structure ErrorBody where
  error : String
  details : ErrDetails
deriving Repr, DecidableEq

/-- `validation_exception_handler` from `main.py`: renders a
`RequestValidationError` with one entry per violated field. -/
def validation_exception_handler (errs : List FieldError) : ErrorBody :=
  ⟨"Validation failed", .validationErrors errs⟩

/-- `http_exception_handler` from `main.py`: renders every
`HTTPException` with an empty `details` object. -/
def http_exception_handler (e : HTTPError) : ErrorBody :=
  ⟨e.detail, .emptyDetails⟩

/-- The violations FastAPI reports for the `limit` and `offset` query
parameters of `GET /v1/books` (all of them, not just the first). -/
def listParamErrs (limit offset : Int) : List FieldError :=
  (if limit < 1 then [⟨"limit", "Input should be greater than or equal to 1"⟩] else []) ++
  (if 100 < limit then [⟨"limit", "Input should be less than or equal to 100"⟩] else []) ++
  (if offset < 0 then [⟨"offset", "Input should be greater than or equal to 0"⟩] else [])

/-- The FastAPI validation of the `limit` and `offset` query
parameters of `GET /v1/books`, collecting all violations. -/
def validateListParams (limit offset : Int) : Except (List FieldError) (Nat × Nat) :=
  if (listParamErrs limit offset).isEmpty then .ok (limit.toNat, offset.toNat)
  else .error (listParamErrs limit offset)

/-- The query-parameter stage of `GET /v1/books`: FastAPI defaults
(`Query(20, ...)`, `Query(0, ...)`) then bounds validation; a failure
is a `RequestValidationError` and is rendered by
`validation_exception_handler`. -/
def list_params_stage (limit offset : Option Int) : Except ErrorBody (Nat × Nat) :=
  match validateListParams (limit.getD 20) (offset.getD 0) with
  | .error errs => .error (validation_exception_handler errs)
  | .ok lo => .ok lo

/-! Projections of request bodies, used to state field-wise properties. -/

/-- The `title` field carried by a create body. -/
def createTitle : CreateBody → Option String
  | .jsonBody p => p.title
  | .multipartBody t _ _ _ _ => t
  | .otherBody => none

/-- The `author` field carried by a create body. -/
def createAuthor : CreateBody → Option String
  | .jsonBody p => p.author
  | .multipartBody _ a _ _ _ => a
  | .otherBody => none

/-- The `description` field carried by a create body. -/
def createDescription : CreateBody → Option String
  | .jsonBody p => p.description
  | .multipartBody _ _ d _ _ => d
  | .otherBody => none

/-- The `price` field carried by a create body. -/
def createPrice : CreateBody → Option Dec
  | .jsonBody p => p.price
  | .multipartBody _ _ _ p _ => p
  | .otherBody => none

/-- The `title` field carried by an update body. -/
def updTitle : UpdateBody → Option String
  | .jsonBody p _ => p.title
  | .multipartBody t _ _ _ _ _ => t
  | .otherBody => none

/-- The `author` field carried by an update body. -/
def updAuthor : UpdateBody → Option String
  | .jsonBody p _ => p.author
  | .multipartBody _ a _ _ _ _ => a
  | .otherBody => none

/-- The `description` field carried by an update body. -/
def updDescription : UpdateBody → Option String
  | .jsonBody p _ => p.description
  | .multipartBody _ _ d _ _ _ => d
  | .otherBody => none

/-- The `price` field carried by an update body. -/
def updPrice : UpdateBody → Option Dec
  | .jsonBody p _ => p.price
  | .multipartBody _ _ _ p _ _ => p
  | .otherBody => none

/-- An update body that requests no image change at all. -/
def noImageAction : UpdateBody → Prop
  | .jsonBody _ rm => rm = false
  | .multipartBody _ _ _ _ img rm => img = none ∧ rm = false
  | .otherBody => True

/-- The status of an erroneous result, `none` on success. -/
def errStatus {α : Type} : Except HTTPError α → Option Nat
  | .error e => some e.status
  | .ok _ => none

/-! Concrete fixtures used by witnesses and counterexamples. -/

/-- A stored Cloudinary reference. -/
def imgFix : ImageData := ⟨"https://res.example.com/book1.webp", "book_cover_1"⟩

/-- An active book without an image. -/
def bkOld : Book := ⟨1, "Old Title", "Old Author", "Old Desc", ⟨1099, -2⟩, true, none, 1, 1⟩

/-- An active book carrying an image. -/
def bkImg : Book := ⟨1, "T", "A", "D", ⟨1099, -2⟩, true, some imgFix, 1, 1⟩

/-- Three active books with distinct creation times (newest first). -/
def bkNew5 : Book := ⟨3, "C", "CA", "CD", ⟨500, -2⟩, true, none, 5, 5⟩

def bkNew4 : Book := ⟨2, "B", "BA", "BD", ⟨400, -2⟩, true, none, 4, 4⟩

def bkNew3 : Book := ⟨1, "A", "AA", "AD", ⟨300, -2⟩, true, none, 3, 3⟩

/-- Two active books sharing a creation time, ids ascending. -/
def bkTieA : Book := ⟨1, "A", "AA", "AD", ⟨300, -2⟩, true, none, 5, 5⟩

def bkTieB : Book := ⟨2, "B", "BB", "BD", ⟨400, -2⟩, true, none, 5, 5⟩

def dbEmpty : DBState := ⟨[], 1, 7⟩

def dbOne : DBState := ⟨[bkOld], 2, 10⟩

def dbImg : DBState := ⟨[bkImg], 2, 10⟩

def dbThree : DBState := ⟨[bkNew5, bkNew4, bkNew3], 4, 10⟩

def dbTie : DBState := ⟨[bkTieA, bkTieB], 3, 10⟩

/-- A ready environment mirroring `Config` defaults. -/
def envR : Env :=
  ⟨true, 10485760, ["image/jpeg", "image/png", "image/webp", "image/avif"],
   some imgFix, true⟩

/-- A file whose content type is not allow-listed. -/
def badFile : FileUpload := ⟨"text/plain", 10⟩

/-! Lemmas about the whitespace transforms. -/

theorem dropLeadingWS_head (l : List Char) :
    dropLeadingWS l = [] ∨
      ∃ c cs, dropLeadingWS l = c :: cs ∧ isSpace c = false := by
  induction l with
  | nil => exact Or.inl rfl
  | cons c cs ih =>
    cases hc : isSpace c with
    | true => simpa [dropLeadingWS, hc] using ih
    | false => exact Or.inr ⟨c, cs, by simp [dropLeadingWS, hc], hc⟩

theorem dropLeadingWS_of_head_not (c : Char) (cs : List Char)
    (h : isSpace c = false) : dropLeadingWS (c :: cs) = c :: cs := by
  simp [dropLeadingWS, h]

theorem dropLeadingWS_suffix (l : List Char) : dropLeadingWS l <:+ l := by
  induction l with
  | nil => exact List.suffix_rfl
  | cons c cs ih =>
    cases hc : isSpace c with
    | true =>
      rw [show dropLeadingWS (c :: cs) = dropLeadingWS cs by simp [dropLeadingWS, hc]]
      exact ih.trans (List.suffix_cons c cs)
    | false => rw [dropLeadingWS_of_head_not c cs hc]

theorem dropLeadingWS_eq_self (l : List Char)
    (h : ∀ c, l.head? = some c → isSpace c = false) : dropLeadingWS l = l := by
  cases l with
  | nil => rfl
  | cons c cs => exact dropLeadingWS_of_head_not c cs (h c rfl)

theorem isSpace_head_stripChars (l : List Char) (c : Char)
    (h : (stripChars l).head? = some c) : isSpace c = false := by
  unfold stripChars at h
  rcases dropLeadingWS_head (dropLeadingWS l).reverse with h0 | ⟨d, ds, hd, hds⟩
  · rw [h0] at h; simp at h
  · -- the stripped list is a reversed suffix, hence a prefix of `dropLeadingWS l`
    have hpre : (dropLeadingWS (dropLeadingWS l).reverse).reverse <+: dropLeadingWS l := by
      have hsuf := dropLeadingWS_suffix (dropLeadingWS l).reverse
      have := List.reverse_prefix.mpr hsuf
      simpa using this
    rw [hd] at h hpre
    rcases hpre with ⟨t, ht⟩
    rcases hrev : (d :: ds).reverse with _ | ⟨x, xs⟩
    · simp at hrev
    · rw [hrev] at h ht
      have hx : x = c := by simpa using h
      subst hx
      rcases dropLeadingWS_head l with h1 | ⟨e, es, he, hes⟩
      · rw [h1] at ht; simp at ht
      · rw [he] at ht
        have : x = e := by
          have := congrArg List.head? ht
          simpa using this
        rw [this]; exact hes

theorem isSpace_getLast_stripChars (l : List Char) (c : Char)
    (h : (stripChars l).getLast? = some c) : isSpace c = false := by
  unfold stripChars at h
  rw [List.getLast?_reverse] at h
  rcases dropLeadingWS_head (dropLeadingWS l).reverse with h0 | ⟨d, ds, hd, hds⟩
  · rw [h0] at h; simp at h
  · rw [hd] at h
    have : d = c := by simpa using h
    subst this; exact hds

theorem collapseChars_cons_of_not (c : Char) (l : List Char)
    (h : isSpace c = false) : collapseChars (c :: l) = c :: collapseChars l := by
  cases l with
  | nil => simp [collapseChars, h]
  | cons d ds => simp [collapseChars, h]

theorem collapseChars_ne_nil (l : List Char) (h : l ≠ []) :
    collapseChars l ≠ [] := by
  induction l with
  | nil => exact absurd rfl h
  | cons c cs ih =>
    cases cs with
    | nil => cases hc : isSpace c <;> simp [collapseChars, hc]
    | cons d ds =>
      cases hc : isSpace c with
      | true =>
        cases hd : isSpace d with
        | true => simpa [collapseChars, hc, hd] using ih (by simp)
        | false => simp [collapseChars, hc, hd]
      | false => simp [collapseChars, hc]

theorem getLast?_cons_of_ne_nil {α : Type} (a : α) (l : List α) (h : l ≠ []) :
    (a :: l).getLast? = l.getLast? := by
  cases l with
  | nil => exact absurd rfl h
  | cons b m => exact List.getLast?_cons_cons

theorem head?_collapseChars (l : List Char) (c : Char)
    (hhead : l.head? = some c) (hc : isSpace c = false) :
    (collapseChars l).head? = some c := by
  cases l with
  | nil => simp at hhead
  | cons a cs =>
    have ha : a = c := by simpa using hhead
    subst ha
    rw [collapseChars_cons_of_not a cs hc]
    rfl

theorem getLast?_collapseChars (l : List Char) (c : Char)
    (hlast : l.getLast? = some c) (hc : isSpace c = false) :
    (collapseChars l).getLast? = some c := by
  induction l with
  | nil => simp at hlast
  | cons a cs ih =>
    cases cs with
    | nil =>
      have ha : a = c := by simpa using hlast
      subst ha
      simp [collapseChars, hc]
    | cons d ds =>
      have hlast' : (d :: ds).getLast? = some c := by
        rw [← List.getLast?_cons_cons (a := a)]; exact hlast
      have ihc := ih hlast'
      have hne : collapseChars (d :: ds) ≠ [] := collapseChars_ne_nil _ (by simp)
      cases ha : isSpace a with
      | true =>
        cases hd : isSpace d with
        | true =>
          rw [show collapseChars (a :: d :: ds) = collapseChars (d :: ds) by
            simp [collapseChars, ha, hd]]
          exact ihc
        | false =>
          rw [show collapseChars (a :: d :: ds) = ' ' :: collapseChars (d :: ds) by
            simp [collapseChars, ha, hd]]
          rw [getLast?_cons_of_ne_nil _ _ hne]
          exact ihc
      | false =>
        rw [collapseChars_cons_of_not a (d :: ds) ha]
        rw [getLast?_cons_of_ne_nil _ _ hne]
        exact ihc

theorem stripChars_collapse_strip (l : List Char) :
    stripChars (collapseChars (stripChars l)) = collapseChars (stripChars l) := by
  rcases hsl : stripChars l with _ | ⟨c, cs⟩
  · rfl
  · have hc : isSpace c = false :=
      isSpace_head_stripChars l c (by rw [hsl]; rfl)
    have hlastex : ∃ c', (c :: cs).getLast? = some c' := by
      cases hgl : (c :: cs).getLast? with
      | none => exact absurd hgl (by simp)
      | some c' => exact ⟨c', rfl⟩
    obtain ⟨c', hlast⟩ := hlastex
    have hc' : isSpace c' = false :=
      isSpace_getLast_stripChars l c' (by rw [hsl]; exact hlast)
    have hhead : (collapseChars (c :: cs)).head? = some c :=
      head?_collapseChars _ _ rfl hc
    have hgl : (collapseChars (c :: cs)).getLast? = some c' :=
      getLast?_collapseChars _ _ hlast hc'
    -- both strips are identities on the collapsed list
    have h1 : dropLeadingWS (collapseChars (c :: cs)) = collapseChars (c :: cs) := by
      apply dropLeadingWS_eq_self
      intro e he
      rw [hhead] at he
      cases he; exact hc
    have h2 : dropLeadingWS (collapseChars (c :: cs)).reverse
        = (collapseChars (c :: cs)).reverse := by
      apply dropLeadingWS_eq_self
      intro e he
      rw [List.head?_reverse, hgl] at he
      cases he; exact hc'
    unfold stripChars
    rw [h1, h2, List.reverse_reverse]

theorem pyStrip_collapseWS_pyStrip (s : String) :
    pyStrip (collapseWS (pyStrip s)) = collapseWS (pyStrip s) := by
  unfold pyStrip collapseWS
  exact congrArg String.mk (stripChars_collapse_strip s.toList)

/-! Lemmas about the decimal model and the field validators. -/

theorem quantize2_of_le (v : Dec) (h : -2 ≤ v.exp) :
    quantize2 v = ⟨v.mant * 10 ^ (v.exp + 2).toNat, -2⟩ := by
  unfold quantize2
  rw [if_pos h]

theorem decVal_quantize2 (v : Dec) (h : -2 ≤ v.exp) :
    decVal (quantize2 v) = decVal v := by
  rw [quantize2_of_le v h]
  unfold decVal
  have h2 : (0 : ℤ) ≤ v.exp + 2 := by linarith
  have hk : ((v.exp + 2).toNat : ℤ) = v.exp + 2 := Int.toNat_of_nonneg h2
  have hten : ((10 : ℚ) : ℚ) ≠ 0 := by norm_num
  push_cast
  rw [← zpow_natCast (10 : ℚ) (v.exp + 2).toNat, hk, mul_assoc,
    ← zpow_add₀ hten]
  norm_num

theorem specHalfUpTo2_of_le (v : Dec) (h : -2 ≤ v.exp) :
    specHalfUpTo2 v = ⟨v.mant * 10 ^ (v.exp + 2).toNat, -2⟩ := by
  unfold specHalfUpTo2
  rw [if_pos (by linarith : (0 : ℤ) ≤ v.exp + 2)]

theorem checkPrice_ok (v p : Dec) (h : checkPrice v = .ok p) :
    0 ≤ v.mant ∧ -2 ≤ v.exp ∧ p = quantize2 v ∧ p = specHalfUpTo2 v ∧
      p.exp = -2 ∧ decVal p = decVal v := by
  unfold checkPrice validate_price_precision at h
  split at h
  · simp at h
  · split at h
    · simp at h
    · rename_i hm he
      have hm' : 0 ≤ v.mant := by omega
      have he' : -2 ≤ v.exp := by omega
      have hp : p = quantize2 v := by
        have := h
        simp only [Except.ok.injEq] at this
        exact this.symm
      refine ⟨hm', he', hp, ?_, ?_, ?_⟩
      · rw [hp, quantize2_of_le v he', specHalfUpTo2_of_le v he']
      · rw [hp, quantize2_of_le v he']
      · rw [hp]; exact decVal_quantize2 v he'

theorem validate_price_precision_error (v : Dec) (h : v.exp < -2) :
    validate_price_precision v
      = .error ⟨"price", "Price cannot have more than 2 decimal places"⟩ := by
  unfold validate_price_precision
  rw [if_pos h]

theorem checkPrice_error_of_precision (v : Dec) (h : v.exp < -2) :
    ∃ e, checkPrice v = .error e := by
  unfold checkPrice
  split
  · exact ⟨_, rfl⟩
  · rw [validate_price_precision_error v h]; exact ⟨_, rfl⟩

theorem validateText_ok (name s t : String) (h : validateText name s = .ok t) :
    t = collapseWS (pyStrip s) := by
  unfold validateText at h
  split at h
  · simp at h
  · simpa using h.symm

theorem optText_ok (name : String) (v : Option String) (r : Option String)
    (h : optText name v = .ok r) :
    (v = none → r = none) ∧
      ∀ s, v = some s → r = some (collapseWS (pyStrip s)) := by
  cases v with
  | none =>
    refine ⟨fun _ => ?_, fun s hs => by simp at hs⟩
    simpa [optText] using h.symm
  | some s =>
    refine ⟨fun hv => by simp at hv, fun s' hs' => ?_⟩
    cases hs'
    simp only [optText] at h
    cases ht : validateText name s with
    | error e => rw [ht] at h; simp [Except.map] at h
    | ok t =>
      rw [ht] at h
      simp only [Except.map, Except.ok.injEq] at h
      rw [← h, validateText_ok name s t ht]

theorem optPrice_ok (v : Option Dec) (r : Option Dec) (h : optPrice v = .ok r) :
    (v = none → r = none) ∧
      ∀ w, v = some w → r = some (quantize2 w) := by
  cases v with
  | none =>
    refine ⟨fun _ => ?_, fun w hw => by simp at hw⟩
    simpa [optPrice] using h.symm
  | some w =>
    refine ⟨fun hv => by simp at hv, fun w' hw' => ?_⟩
    cases hw'
    simp only [optPrice] at h
    cases hp : checkPrice w with
    | error e => rw [hp] at h; simp [Except.map] at h
    | ok p =>
      rw [hp] at h
      simp only [Except.map, Except.ok.injEq] at h
      rw [← h, (checkPrice_ok w p hp).2.2.1]

/-! Inversion lemmas for the request models. -/

theorem mkBookRequest_ok (i : CreateInput) (bd : BookData)
    (h : mkBookRequest i = .ok bd) :
    reqText "title" i.title = .ok bd.title ∧
      reqText "author" i.author = .ok bd.author ∧
      reqText "description" i.description = .ok bd.description ∧
      reqPrice i.price = .ok bd.price := by
  unfold mkBookRequest at h
  rcases ht : reqText "title" i.title with et | t <;>
    rcases ha : reqText "author" i.author with ea | a <;>
      rcases hd : reqText "description" i.description with ed | d <;>
        rcases hp : reqPrice i.price with ep | p <;>
          rw [ht, ha, hd, hp] at h <;> simp at h
  subst h
  exact ⟨rfl, rfl, rfl, rfl⟩

theorem mkBookRequest_price_error (i : CreateInput) (e : FieldError)
    (hp : reqPrice i.price = .error e) :
    ∃ es, mkBookRequest i = .error es := by
  unfold mkBookRequest
  rcases ht : reqText "title" i.title with et | t <;>
    rcases ha : reqText "author" i.author with ea | a <;>
      rcases hd : reqText "description" i.description with ed | d <;>
        rw [hp] <;> exact ⟨_, rfl⟩

theorem mkBookUpdateRequest_ok (i : UpdateInput) (u : UpdateData)
    (h : mkBookUpdateRequest i = .ok u) :
    optText "title" i.title = .ok u.title ∧
      optText "author" i.author = .ok u.author ∧
      optText "description" i.description = .ok u.description ∧
      optPrice i.price = .ok u.price := by
  unfold mkBookUpdateRequest at h
  rcases ht : optText "title" i.title with et | t <;>
    rcases ha : optText "author" i.author with ea | a <;>
      rcases hd : optText "description" i.description with ed | d <;>
        rcases hp : optPrice i.price with ep | p <;>
          rw [ht, ha, hd, hp] at h <;> simp at h
  split at h
  · simp at h
  · simp only [Except.ok.injEq] at h
    subst h
    exact ⟨rfl, rfl, rfl, rfl⟩

theorem mkBookUpdateRequest_price_error (i : UpdateInput) (e : FieldError)
    (hp : optPrice i.price = .error e) :
    ∃ es, mkBookUpdateRequest i = .error es := by
  unfold mkBookUpdateRequest
  rcases ht : optText "title" i.title with et | t <;>
    rcases ha : optText "author" i.author with ea | a <;>
      rcases hd : optText "description" i.description with ed | d <;>
        rw [hp] <;> exact ⟨_, rfl⟩

/-! Lemmas about the store model. -/

theorem findActive_some (db : DBState) (id : Nat) (book : Book)
    (h : findActive db id = some book) :
    book ∈ db.rows ∧ book.id = id ∧ book.active = true := by
  unfold findActive at h
  cases hl : db.rows.filter (fun b => b.id == id && b.active) with
  | nil => rw [hl] at h; simp at h
  | cons x xs =>
    rw [hl] at h
    have hx : x = book := by simpa using h
    subst hx
    have hmem : x ∈ db.rows.filter (fun b => b.id == id && b.active) := by
      rw [hl]; exact List.mem_cons_self x xs
    have := List.mem_filter.mp hmem
    refine ⟨this.1, ?_, ?_⟩
    · have := this.2
      simp only [Bool.and_eq_true, beq_iff_eq] at this
      exact this.1
    · have := this.2
      simp only [Bool.and_eq_true, beq_iff_eq] at this
      exact this.2

theorem findActive_commitRow_inactive (db : DBState) (book : Book) (id : Nat)
    (hid : book.id = id) (hact : book.active = false) :
    findActive (commitRow db book) id = none := by
  unfold findActive commitRow
  rw [List.head?_eq_none_iff, List.filter_eq_nil_iff]
  intro b hb
  simp only [List.mem_map] at hb
  obtain ⟨r, _, hrb⟩ := hb
  by_cases hr : r.id = book.id
  · rw [if_pos hr] at hrb
    rw [← hrb]
    simp [hact]
  · rw [if_neg hr] at hrb
    rw [← hrb]
    simp only [Bool.and_eq_true, beq_iff_eq]
    intro hcon
    exact hr (by rw [hcon.1, hid])

theorem mem_commitRow (db : DBState) (book b : Book)
    (hb : b ∈ (commitRow db book).rows) :
    b = book ∨ (b ∈ db.rows ∧ b.id ≠ book.id) := by
  unfold commitRow at hb
  simp only [List.mem_map] at hb
  obtain ⟨r, hr, hrb⟩ := hb
  by_cases h : r.id = book.id
  · rw [if_pos h] at hrb; exact Or.inl hrb.symm
  · rw [if_neg h] at hrb; subst hrb; exact Or.inr ⟨hr, h⟩

theorem mem_commitRow_of_id (db : DBState) (b r : Book)
    (hr : r ∈ db.rows) (hid : r.id = b.id) : b ∈ (commitRow db b).rows := by
  unfold commitRow
  simp only [List.mem_map]
  exact ⟨r, hr, by rw [if_pos hid]⟩

theorem map_update_id_self (rows : List Book) (book : Book)
    (hmem : book ∈ rows) (hnd : (rows.map Book.id).Nodup) :
    rows.map (fun r => if r.id = book.id then book else r) = rows := by
  induction rows with
  | nil => rfl
  | cons r rest ih =>
    rw [List.map_cons] at hnd
    have hnd' := List.nodup_cons.mp hnd
    rw [List.map_cons]
    rcases List.mem_cons.mp hmem with hbr | hbrest
    · subst hbr
      rw [if_pos rfl]
      congr 1
      have hnotin : ∀ x ∈ rest, x.id ≠ book.id := by
        intro x hx hcon
        exact hnd'.1 (by rw [← hcon]; exact List.mem_map_of_mem Book.id hx)
      calc rest.map (fun x => if x.id = book.id then book else x)
          = rest.map (fun x => x) := by
            apply List.map_congr_left
            intro x hx
            rw [if_neg (hnotin x hx)]
        _ = rest := List.map_id rest
    · have hne : r.id ≠ book.id := by
        intro hcon
        exact hnd'.1 (by rw [hcon]; exact List.mem_map_of_mem Book.id hbrest)
      rw [if_neg hne]
      congr 1
      exact ih hbrest hnd'.2

theorem commitRow_self (db : DBState) (book : Book)
    (hmem : book ∈ db.rows) (hnd : (db.rows.map Book.id).Nodup) :
    commitRow db book = db := by
  unfold commitRow
  rw [map_update_id_self db.rows book hmem hnd]

theorem listQueryResult_mem (db : DBState) (limit offset : Nat) (res : List Book)
    (h : listQueryResult db limit offset res) :
    ∀ b ∈ res, b ∈ db.rows ∧ b.active = true := by
  obtain ⟨all, hperm, _, hslice⟩ := h
  intro b hb
  have hball : b ∈ all := by
    subst hslice
    exact (List.take_subset _ _ (hb)) |> (List.drop_subset _ _)
  have : b ∈ activeRows db := hperm.subset hball
  have := List.mem_filter.mp this
  exact ⟨this.1, this.2⟩

/-! Inversion lemmas for the endpoint handlers. -/

theorem finishCreate_inv (db : DBState) (bd : BookData) (img : Option ImageData)
    (tr : List NetCall) (book : Book) (db' : DBState) (tr' : List NetCall)
    (h : finishCreate db bd img tr = (.ok book, db', tr')) :
    book.title = pyStrip bd.title ∧ book.author = pyStrip bd.author ∧
      book.description = pyStrip bd.description ∧ book.price = bd.price := by
  unfold finishCreate at h
  simp only [Prod.mk.injEq, Except.ok.injEq] at h
  obtain ⟨hb, -⟩ := h
  subst hb
  exact ⟨rfl, rfl, rfl, rfl⟩

theorem create_book_json_ok (db : DBState) (payload : CreateInput)
    (book : Book) (db' : DBState) (tr : List NetCall)
    (h : create_book_json db payload = (.ok book, db', tr)) :
    ∃ bd, mkBookRequest payload = .ok bd ∧
      book.title = pyStrip bd.title ∧ book.author = pyStrip bd.author ∧
      book.description = pyStrip bd.description ∧ book.price = bd.price := by
  unfold create_book_json at h
  split at h
  · simp at h
  · rename_i bd hbd
    exact ⟨bd, hbd, finishCreate_inv db bd none [] book db' tr h⟩

theorem create_book_multipart_ok (env : Env) (db : DBState)
    (t a d : Option String) (p : Option Dec) (img : Option FileUpload)
    (book : Book) (db' : DBState) (tr : List NetCall)
    (h : create_book_multipart env db t a d p img = (.ok book, db', tr)) :
    ∃ bd, mkBookRequest ⟨t, a, d, p⟩ = .ok bd ∧
      book.title = pyStrip bd.title ∧ book.author = pyStrip bd.author ∧
      book.description = pyStrip bd.description ∧ book.price = bd.price := by
  unfold create_book_multipart at h
  split at h
  · simp at h
  · split at h
    · simp at h
    · rename_i hmiss bd hbd
      split at h
      · exact ⟨bd, hbd, finishCreate_inv _ _ _ _ _ _ _ h⟩
      · split at h
        · simp at h
        · exact ⟨bd, hbd, finishCreate_inv _ _ _ _ _ _ _ h⟩

theorem commitUpdate_ok (db : DBState) (old b2 : Book) (tr : List NetCall)
    (book' : Book) (db' : DBState) (tr' : List NetCall)
    (h : commitUpdate db old b2 tr = (.ok book', db', tr')) :
    book'.title = b2.title ∧ book'.author = b2.author ∧
      book'.description = b2.description ∧ book'.price = b2.price ∧
      book'.image = b2.image ∧ book'.id = b2.id ∧ book'.active = b2.active ∧
      book'.created_at = b2.created_at := by
  unfold commitUpdate at h
  simp only [Prod.mk.injEq, Except.ok.injEq] at h
  obtain ⟨hb, -⟩ := h
  split at hb
  · rename_i heq
    subst heq
    subst hb
    exact ⟨rfl, rfl, rfl, rfl, rfl, rfl, rfl, rfl⟩
  · subst hb
    exact ⟨rfl, rfl, rfl, rfl, rfl, rfl, rfl, rfl⟩

theorem setTitle_ok (b : Book) (t : Option String) (b1 : Book)
    (h : setTitle b t = .ok b1) :
    ((t = none ∧ b1.title = b.title) ∨
      ∃ s, t = some s ∧ b1.title = collapseWS (pyStrip s)) ∧
    b1.author = b.author ∧ b1.description = b.description ∧
    b1.price = b.price ∧ b1.image = b.image ∧ b1.id = b.id ∧
    b1.active = b.active ∧ b1.created_at = b.created_at ∧
    b1.updated_at = b.updated_at := by
  cases t with
  | none =>
    have hb : b = b1 := by simpa [setTitle] using h
    subst hb
    exact ⟨Or.inl ⟨rfl, rfl⟩, rfl, rfl, rfl, rfl, rfl, rfl, rfl, rfl⟩
  | some s =>
    simp only [setTitle] at h
    cases ht : validateText "title" s with
    | error e => rw [ht] at h; simp [Except.map] at h
    | ok v =>
      rw [ht] at h
      simp only [Except.map, Except.ok.injEq] at h
      subst h
      exact ⟨Or.inr ⟨s, rfl, validateText_ok _ _ _ ht⟩,
        rfl, rfl, rfl, rfl, rfl, rfl, rfl, rfl⟩

theorem setAuthor_ok (b : Book) (a : Option String) (b1 : Book)
    (h : setAuthor b a = .ok b1) :
    ((a = none ∧ b1.author = b.author) ∨
      ∃ s, a = some s ∧ b1.author = collapseWS (pyStrip s)) ∧
    b1.title = b.title ∧ b1.description = b.description ∧
    b1.price = b.price ∧ b1.image = b.image ∧ b1.id = b.id ∧
    b1.active = b.active ∧ b1.created_at = b.created_at ∧
    b1.updated_at = b.updated_at := by
  cases a with
  | none =>
    have hb : b = b1 := by simpa [setAuthor] using h
    subst hb
    exact ⟨Or.inl ⟨rfl, rfl⟩, rfl, rfl, rfl, rfl, rfl, rfl, rfl, rfl⟩
  | some s =>
    simp only [setAuthor] at h
    cases ht : validateText "author" s with
    | error e => rw [ht] at h; simp [Except.map] at h
    | ok v =>
      rw [ht] at h
      simp only [Except.map, Except.ok.injEq] at h
      subst h
      exact ⟨Or.inr ⟨s, rfl, validateText_ok _ _ _ ht⟩,
        rfl, rfl, rfl, rfl, rfl, rfl, rfl, rfl⟩

theorem setDescription_ok (b : Book) (d : Option String) (b1 : Book)
    (h : setDescription b d = .ok b1) :
    ((d = none ∧ b1.description = b.description) ∨
      ∃ s, d = some s ∧ b1.description = collapseWS (pyStrip s)) ∧
    b1.title = b.title ∧ b1.author = b.author ∧
    b1.price = b.price ∧ b1.image = b.image ∧ b1.id = b.id ∧
    b1.active = b.active ∧ b1.created_at = b.created_at ∧
    b1.updated_at = b.updated_at := by
  cases d with
  | none =>
    have hb : b = b1 := by simpa [setDescription] using h
    subst hb
    exact ⟨Or.inl ⟨rfl, rfl⟩, rfl, rfl, rfl, rfl, rfl, rfl, rfl, rfl⟩
  | some s =>
    simp only [setDescription] at h
    cases ht : validateText "description" s with
    | error e => rw [ht] at h; simp [Except.map] at h
    | ok v =>
      rw [ht] at h
      simp only [Except.map, Except.ok.injEq] at h
      subst h
      exact ⟨Or.inr ⟨s, rfl, validateText_ok _ _ _ ht⟩,
        rfl, rfl, rfl, rfl, rfl, rfl, rfl, rfl⟩

theorem setPrice_ok (b : Book) (p : Option Dec) (b1 : Book)
    (h : setPrice b p = .ok b1) :
    ((p = none ∧ b1.price = b.price) ∨
      ∃ v, p = some v ∧ b1.price = quantize2 v) ∧
    b1.title = b.title ∧ b1.author = b.author ∧
    b1.description = b.description ∧ b1.image = b.image ∧ b1.id = b.id ∧
    b1.active = b.active ∧ b1.created_at = b.created_at ∧
    b1.updated_at = b.updated_at := by
  cases p with
  | none =>
    have hb : b = b1 := by simpa [setPrice] using h
    subst hb
    exact ⟨Or.inl ⟨rfl, rfl⟩, rfl, rfl, rfl, rfl, rfl, rfl, rfl, rfl⟩
  | some v =>
    simp only [setPrice] at h
    cases hp : checkPrice v with
    | error e => rw [hp] at h; simp [Except.map] at h
    | ok q =>
      rw [hp] at h
      simp only [Except.map, Except.ok.injEq] at h
      subst h
      exact ⟨Or.inr ⟨v, rfl, (checkPrice_ok v q hp).2.2.1⟩,
        rfl, rfl, rfl, rfl, rfl, rfl, rfl, rfl⟩

theorem applyMultipartFields_ok (b : Book) (t a d : Option String)
    (p : Option Dec) (b1 : Book)
    (h : applyMultipartFields b t a d p = .ok b1) :
    (t = none → b1.title = b.title) ∧
    (∀ s, t = some s → b1.title = collapseWS (pyStrip s)) ∧
    (a = none → b1.author = b.author) ∧
    (∀ s, a = some s → b1.author = collapseWS (pyStrip s)) ∧
    (d = none → b1.description = b.description) ∧
    (∀ s, d = some s → b1.description = collapseWS (pyStrip s)) ∧
    (p = none → b1.price = b.price) ∧
    (∀ v, p = some v → b1.price = quantize2 v) ∧
    b1.image = b.image ∧ b1.id = b.id ∧ b1.active = b.active ∧
    b1.created_at = b.created_at := by
  unfold applyMultipartFields at h
  split at h
  · simp at h
  rename_i c1 h1
  split at h
  · simp at h
  rename_i c2 h2
  split at h
  · simp at h
  rename_i c3 h3
  have s1 := setTitle_ok b t c1 h1
  have s2 := setAuthor_ok c1 a c2 h2
  have s3 := setDescription_ok c2 d c3 h3
  have s4 := setPrice_ok c3 p b1 h
  refine ⟨?_, ?_, ?_, ?_, ?_, ?_, ?_, ?_, ?_, ?_, ?_, ?_⟩
  · intro ht
    rcases s1.1 with ⟨-, he⟩ | ⟨s, hs, -⟩
    · rw [s4.2.1, s3.2.1, s2.2.1, he]
    · rw [ht] at hs; exact absurd hs (by simp)
  · intro s hs
    rcases s1.1 with ⟨hn, -⟩ | ⟨s', hs', he⟩
    · rw [hn] at hs; exact absurd hs (by simp)
    · rw [hs] at hs'
      have : s = s' := by simpa using hs'
      subst this
      rw [s4.2.1, s3.2.1, s2.2.1, he]
  · intro ha
    rcases s2.1 with ⟨-, he⟩ | ⟨s, hs, -⟩
    · rw [s4.2.2.1, s3.2.2.1, he, s1.2.1]
    · rw [ha] at hs; exact absurd hs (by simp)
  · intro s hs
    rcases s2.1 with ⟨hn, -⟩ | ⟨s', hs', he⟩
    · rw [hn] at hs; exact absurd hs (by simp)
    · rw [hs] at hs'
      have : s = s' := by simpa using hs'
      subst this
      rw [s4.2.2.1, s3.2.2.1, he]
  · intro hd
    rcases s3.1 with ⟨-, he⟩ | ⟨s, hs, -⟩
    · rw [s4.2.2.2.1, he, s2.2.2.1, s1.2.2.1]
    · rw [hd] at hs; exact absurd hs (by simp)
  · intro s hs
    rcases s3.1 with ⟨hn, -⟩ | ⟨s', hs', he⟩
    · rw [hn] at hs; exact absurd hs (by simp)
    · rw [hs] at hs'
      have : s = s' := by simpa using hs'
      subst this
      rw [s4.2.2.2.1, he]
  · intro hp
    rcases s4.1 with ⟨-, he⟩ | ⟨v, hv, -⟩
    · rw [he, s3.2.2.2.1, s2.2.2.2.1, s1.2.2.2.1]
    · rw [hp] at hv; exact absurd hv (by simp)
  · intro v hv
    rcases s4.1 with ⟨hn, -⟩ | ⟨v', hv', he⟩
    · rw [hn] at hv; exact absurd hv (by simp)
    · rw [hv] at hv'
      have : v = v' := by simpa using hv'
      subst this
      rw [he]
  · rw [s4.2.2.2.2.1, s3.2.2.2.2.1, s2.2.2.2.2.1, s1.2.2.2.2.1]
  · rw [s4.2.2.2.2.2.1, s3.2.2.2.2.2.1, s2.2.2.2.2.2.1, s1.2.2.2.2.2.1]
  · rw [s4.2.2.2.2.2.2.1, s3.2.2.2.2.2.2.1, s2.2.2.2.2.2.2.1, s1.2.2.2.2.2.2.1]
  · rw [s4.2.2.2.2.2.2.2.1, s3.2.2.2.2.2.2.2.1, s2.2.2.2.2.2.2.2.1,
      s1.2.2.2.2.2.2.2.1]

/-! Claim theorems. -/

/-- C10: when a List request omits the `limit` and/or `offset` query
parameters, the request is accepted with the defaults `limit = 20` and
`offset = 0`, and the returned page echoes those values. -/
theorem list_defaults_used :
    list_params_stage none none = .ok (20, 0) ∧
    ∀ (db : DBState) (res : List Book),
      (get_books_page db 20 0 res).limit = 20 ∧
        (get_books_page db 20 0 res).offset = 0 := by
  exact ⟨rfl, fun db res => ⟨rfl, rfl⟩⟩

/-- C1: for every List request with `limit ∈ [1,100]` and `offset ≥ 0`,
the page satisfies `len(items) = min(limit, max(0, total - offset))`
(`Nat` subtraction is truncated, so `total - offset` is the `max`),
`total` is the count of active rows independent of the window, and
`items` is an explicit list that is `[]` whenever `offset ≥ total`. -/
theorem list_page_length (db : DBState) (limit offset : Nat) (res : List Book)
    (hl1 : 1 ≤ limit) (hl2 : limit ≤ 100)
    (hres : listQueryResult db limit offset res) :
    (get_books_page db limit offset res).data.length
        = min limit ((get_books_page db limit offset res).total - offset) ∧
    (get_books_page db limit offset res).total = (activeRows db).length ∧
    ((get_books_page db limit offset res).total ≤ offset →
      (get_books_page db limit offset res).data = []) := by
  obtain ⟨all, hperm, hsort, hslice⟩ := hres
  have hlen : all.length = (activeRows db).length := hperm.length_eq
  have hreslen : res.length = min limit ((activeRows db).length - offset) := by
    rw [hslice, List.length_take, List.length_drop, hlen]
  refine ⟨hreslen, rfl, ?_⟩
  intro hle
  have h0 : (activeRows db).length - offset = 0 := Nat.sub_eq_zero_of_le hle
  have : res.length = 0 := by rw [hreslen, h0]; exact Nat.min_zero limit
  exact List.length_eq_zero.mp this

/-- C1 witness: three active books, `limit = 2`, `offset = 2`. -/
theorem list_page_length_witness :
    (get_books_page dbThree 2 2 [bkNew3]).data.length
      = min 2 ((get_books_page dbThree 2 2 [bkNew3]).total - 2) :=
  (list_page_length dbThree 2 2 [bkNew3] (by decide) (by decide)
    ⟨[bkNew5, bkNew4, bkNew3], by decide, by unfold sortedDesc; decide,
      by decide⟩).1

/-- C2 as stated fails: the query orders only by `created_at`, so two
active records sharing a creation time may be returned with their
identifiers ascending, violating "ties broken by identifier
descending". -/
theorem list_tie_order_cex :
    listQueryResult dbTie 20 0 [bkTieA, bkTieB] ∧
      ¬ specSortedDesc [bkTieA, bkTieB] := by
  constructor
  · exact ⟨[bkTieA, bkTieB], by decide, by unfold sortedDesc; decide, by decide⟩
  · unfold specSortedDesc
    decide

/-- C2 amended: the returned items are active records of the store,
weakly ordered by creation time descending and sliced to a window of at
most `limit` items; the relative order of records with equal creation
times is not specified. -/
theorem list_items_sorted_sliced (db : DBState) (limit offset : Nat)
    (res : List Book) (hres : listQueryResult db limit offset res) :
    sortedDesc res ∧ res.length ≤ limit ∧
      ∀ b ∈ res, b.active = true ∧ b ∈ db.rows := by
  have hmem := listQueryResult_mem db limit offset res hres
  obtain ⟨all, hperm, hsort, hslice⟩ := hres
  have hsub : res.Sublist all := by
    rw [hslice]
    exact (List.take_sublist _ _).trans (List.drop_sublist _ _)
  refine ⟨hsort.sublist hsub, ?_, ?_⟩
  · rw [hslice, List.length_take]
    exact min_le_left _ _
  · intro b hb
    exact ⟨(hmem b hb).2, (hmem b hb).1⟩

/-- C2 amended witness: the first page over three active books. -/
theorem list_items_sorted_sliced_witness :
    sortedDesc [bkNew5, bkNew4] ∧ [bkNew5, bkNew4].length ≤ 2 :=
  ⟨(list_items_sorted_sliced dbThree 2 0 [bkNew5, bkNew4]
      ⟨[bkNew5, bkNew4, bkNew3], by decide, by unfold sortedDesc; decide,
        by decide⟩).1,
   (list_items_sorted_sliced dbThree 2 0 [bkNew5, bkNew4]
      ⟨[bkNew5, bkNew4, bkNew3], by decide, by unfold sortedDesc; decide,
        by decide⟩).2.1⟩

/-- C5: every valid create payload (either encoding) is stored with
title/author/description equal to the input trimmed and with internal
whitespace runs collapsed, and the stored price is the input rounded
half-up to exactly two decimal digits (value preserved, exponent -2:
"19.9" becomes "19.90"). -/
theorem create_book_normalizes (env : Env) (db : DBState) (body : CreateBody)
    (book : Book) (db' : DBState) (tr : List NetCall)
    (h : create_book env db body = (.ok book, db', tr)) :
    (∀ s, createTitle body = some s → book.title = collapseWS (pyStrip s)) ∧
    (∀ s, createAuthor body = some s → book.author = collapseWS (pyStrip s)) ∧
    (∀ s, createDescription body = some s →
      book.description = collapseWS (pyStrip s)) ∧
    (∀ v, createPrice body = some v →
      book.price = specHalfUpTo2 v ∧ book.price.exp = -2 ∧
        decVal book.price = decVal v) := by
  have main : ∀ (i : CreateInput),
      (∃ bd, mkBookRequest i = .ok bd ∧
        book.title = pyStrip bd.title ∧ book.author = pyStrip bd.author ∧
        book.description = pyStrip bd.description ∧ book.price = bd.price) →
      (∀ s, i.title = some s → book.title = collapseWS (pyStrip s)) ∧
      (∀ s, i.author = some s → book.author = collapseWS (pyStrip s)) ∧
      (∀ s, i.description = some s → book.description = collapseWS (pyStrip s)) ∧
      (∀ v, i.price = some v →
        book.price = specHalfUpTo2 v ∧ book.price.exp = -2 ∧
          decVal book.price = decVal v) := by
    rintro i ⟨bd, hbd, hti, hau, hde, hpr⟩
    obtain ⟨ht, ha, hd, hp⟩ := mkBookRequest_ok i bd hbd
    refine ⟨?_, ?_, ?_, ?_⟩
    · intro s hs
      rw [hs] at ht
      have : bd.title = collapseWS (pyStrip s) :=
        validateText_ok "title" s bd.title ht
      rw [hti, this, pyStrip_collapseWS_pyStrip]
    · intro s hs
      rw [hs] at ha
      have : bd.author = collapseWS (pyStrip s) :=
        validateText_ok "author" s bd.author ha
      rw [hau, this, pyStrip_collapseWS_pyStrip]
    · intro s hs
      rw [hs] at hd
      have : bd.description = collapseWS (pyStrip s) :=
        validateText_ok "description" s bd.description hd
      rw [hde, this, pyStrip_collapseWS_pyStrip]
    · intro v hv
      rw [hv] at hp
      have hcp : checkPrice v = .ok bd.price := hp
      have := checkPrice_ok v bd.price hcp
      rw [hpr]
      exact ⟨this.2.2.2.1, this.2.2.2.2.1, this.2.2.2.2.2⟩
  cases body with
  | jsonBody payload =>
    exact main payload (create_book_json_ok db payload book db' tr h)
  | multipartBody t a d p img =>
    exact main ⟨t, a, d, p⟩
      (create_book_multipart_ok env db t a d p img book db' tr h)
  | otherBody => simp [create_book] at h

/-- C5 witness: the Gatsby scenario of the spec. -/
theorem create_book_normalizes_witness :
    (Book.mk 1 "The Great Gatsby" "F. Scott Fitzgerald" "classic"
        ⟨1990, -2⟩ true none 7 7).title
      = collapseWS (pyStrip "  The   Great Gatsby  ") ∧
    (Book.mk 1 "The Great Gatsby" "F. Scott Fitzgerald" "classic"
        ⟨1990, -2⟩ true none 7 7).price = specHalfUpTo2 ⟨199, -1⟩ :=
  ⟨((create_book_normalizes envR dbEmpty
      (.jsonBody ⟨some "  The   Great Gatsby  ", some "F. Scott Fitzgerald",
        some "classic", some ⟨199, -1⟩⟩)
      (Book.mk 1 "The Great Gatsby" "F. Scott Fitzgerald" "classic"
        ⟨1990, -2⟩ true none 7 7)
      ⟨[Book.mk 1 "The Great Gatsby" "F. Scott Fitzgerald" "classic"
        ⟨1990, -2⟩ true none 7 7], 2, 7⟩ []
      (by decide)).1 "  The   Great Gatsby  " rfl),
   ((create_book_normalizes envR dbEmpty
      (.jsonBody ⟨some "  The   Great Gatsby  ", some "F. Scott Fitzgerald",
        some "classic", some ⟨199, -1⟩⟩)
      (Book.mk 1 "The Great Gatsby" "F. Scott Fitzgerald" "classic"
        ⟨1990, -2⟩ true none 7 7)
      ⟨[Book.mk 1 "The Great Gatsby" "F. Scott Fitzgerald" "classic"
        ⟨1990, -2⟩ true none 7 7], 2, 7⟩ []
      (by decide)).2.2.2 ⟨199, -1⟩ rfl).1⟩

theorem applyMultipartFields_price_error (b : Book) (t a d : Option String)
    (v : Dec) (hv : v.exp < -2) :
    ∃ e, applyMultipartFields b t a d (some v) = .error e := by
  obtain ⟨ep, hep⟩ := checkPrice_error_of_precision v hv
  have hsp : ∀ b3 : Book, setPrice b3 (some v) = .error ep := by
    intro b3
    simp [setPrice, hep, Except.map]
  cases h1 : setTitle b t with
  | error e1 => exact ⟨e1, by unfold applyMultipartFields; simp only [h1]⟩
  | ok c1 =>
    cases h2 : setAuthor c1 a with
    | error e2 =>
        exact ⟨e2, by unfold applyMultipartFields; simp only [h1, h2]⟩
    | ok c2 =>
      cases h3 : setDescription c2 d with
      | error e3 =>
          exact ⟨e3, by unfold applyMultipartFields; simp only [h1, h2, h3]⟩
      | ok c3 =>
          exact ⟨ep, by unfold applyMultipartFields; simp only [h1, h2, h3, hsp]⟩

/-- C6: a price carrying more than two decimal digits is rejected with
a `ValidationError` (422) on every create and update path, the store is
left untouched and no media-host call is made; the rejection happens in
the validator before its rounding step, so the over-precise value is
never rounded into acceptance. -/
theorem over_precise_price_rejected (v : Dec) (hv : v.exp < -2) :
    (∀ p, validate_price_precision v ≠ Except.ok p) ∧
    (∀ (env : Env) (db : DBState) (payload : CreateInput),
      payload.price = some v →
      errStatus (create_book env db (.jsonBody payload)).1 = some 422 ∧
      (create_book env db (.jsonBody payload)).2.1 = db ∧
      (create_book env db (.jsonBody payload)).2.2 = []) ∧
    (∀ (env : Env) (db : DBState) (t a d : Option String)
        (img : Option FileUpload),
      errStatus (create_book env db (.multipartBody t a d (some v) img)).1
          = some 422 ∧
      (create_book env db (.multipartBody t a d (some v) img)).2.1 = db ∧
      (create_book env db (.multipartBody t a d (some v) img)).2.2 = []) ∧
    (∀ (env : Env) (db : DBState) (id : Nat) (book : Book)
        (payload : UpdateInput) (rm : Bool),
      findActive db id = some book → payload.price = some v →
      errStatus (update_book env db id (.jsonBody payload rm)).1 = some 422 ∧
      (update_book env db id (.jsonBody payload rm)).2.1 = db ∧
      (update_book env db id (.jsonBody payload rm)).2.2 = []) ∧
    (∀ (env : Env) (db : DBState) (id : Nat) (book : Book)
        (t a d : Option String) (img : Option FileUpload) (rm : Bool),
      findActive db id = some book →
      errStatus
          (update_book env db id (.multipartBody t a d (some v) img rm)).1
          = some 422 ∧
      (update_book env db id (.multipartBody t a d (some v) img rm)).2.1 = db ∧
      (update_book env db id (.multipartBody t a d (some v) img rm)).2.2 = []) := by
  refine ⟨?_, ?_, ?_, ?_, ?_⟩
  · intro p hc
    unfold validate_price_precision at hc
    rw [if_pos hv] at hc
    simp at hc
  · intro env db payload hp
    obtain ⟨e, he⟩ := checkPrice_error_of_precision v hv
    have hreq : reqPrice payload.price = .error e := by
      rw [hp]; exact he
    obtain ⟨es, hes⟩ := mkBookRequest_price_error payload e hreq
    have hred : create_book env db (.jsonBody payload)
        = (.error ⟨422, renderErrs es⟩, db, []) := by
      show create_book_json db payload = _
      unfold create_book_json
      rw [hes]
    rw [hred]
    exact ⟨rfl, rfl, rfl⟩
  · intro env db t a d img
    obtain ⟨e, he⟩ := checkPrice_error_of_precision v hv
    have hred : create_book env db (.multipartBody t a d (some v) img)
        = create_book_multipart env db t a d (some v) img := rfl
    rw [hred]
    unfold create_book_multipart
    split
    · exact ⟨rfl, rfl, rfl⟩
    · obtain ⟨es, hes⟩ :=
        mkBookRequest_price_error ⟨t, a, d, some v⟩ e (by exact he)
      rw [hes]
      exact ⟨rfl, rfl, rfl⟩
  · intro env db id book payload rm hfind hp
    obtain ⟨e, he⟩ := checkPrice_error_of_precision v hv
    have hop : optPrice payload.price = .error e := by
      rw [hp]
      simp only [optPrice, he, Except.map]
    obtain ⟨es, hes⟩ := mkBookUpdateRequest_price_error payload e hop
    have hred : update_book env db id (.jsonBody payload rm)
        = update_book_json env db book payload rm := by
      unfold update_book
      rw [hfind]
    rw [hred]
    unfold update_book_json
    rw [hes]
    exact ⟨rfl, rfl, rfl⟩
  · intro env db id book t a d img rm hfind
    obtain ⟨e, he⟩ := applyMultipartFields_price_error book t a d v hv
    have hred : update_book env db id (.multipartBody t a d (some v) img rm)
        = update_book_multipart env db book t a d (some v) img rm := by
      unfold update_book
      rw [hfind]
    rw [hred]
    unfold update_book_multipart
    rw [he]
    exact ⟨rfl, rfl, rfl⟩

/-- C6 witness: "19.999" (mantissa 19999, exponent -3) is never
accepted, in particular not as its own rounding. -/
theorem over_precise_price_rejected_witness :
    validate_price_precision ⟨19999, -3⟩
      ≠ Except.ok (quantize2 ⟨19999, -3⟩) :=
  (over_precise_price_rejected ⟨19999, -3⟩ (by decide)).1 (quantize2 ⟨19999, -3⟩)

/-- C3 as stated fails: a multipart update carrying no field at all is
not rejected; it succeeds as a silent no-op, returning the record
unchanged (the multipart path never reaches the `at_least_one_field`
validator). -/
theorem empty_multipart_update_cex :
    update_book envR dbOne 1 (.multipartBody none none none none none false)
      = (.ok bkOld, dbOne, []) := by decide

/-- C3 amended: a JSON update with no updatable field present fails
with `ValidationError` (422, "Provide at least one field to update")
and leaves the store untouched; a multipart update with no field
present succeeds as a no-op returning the unchanged record. -/
theorem update_no_fields_amended (env : Env) (db : DBState) (id : Nat)
    (book : Book) (hfind : findActive db id = some book) (rm : Bool) :
    update_book env db id (.jsonBody ⟨none, none, none, none⟩ rm)
        = (.error ⟨422, renderErrs [atLeastOneErr]⟩, db, []) ∧
    update_book env db id (.multipartBody none none none none none false)
        = (.ok book, commitRow db book, []) := by
  constructor
  · have hred : update_book env db id (.jsonBody ⟨none, none, none, none⟩ rm)
        = update_book_json env db book ⟨none, none, none, none⟩ rm := by
      unfold update_book
      rw [hfind]
    rw [hred]
    unfold update_book_json
    rw [show mkBookUpdateRequest ⟨none, none, none, none⟩
      = .error [atLeastOneErr] from rfl]
  · have hred : update_book env db id (.multipartBody none none none none none false)
        = update_book_multipart env db book none none none none none false := by
      unfold update_book
      rw [hfind]
    rw [hred]
    unfold update_book_multipart
    simp only [show applyMultipartFields book none none none none
      = .ok book from rfl]
    unfold multipartImageStep
    cases himg : book.image with
    | none => simp [commitUpdate]
    | some old => simp [commitUpdate]

/-- C3 amended witness: the one-book store. -/
theorem update_no_fields_amended_witness :
    update_book envR dbOne 1 (.jsonBody ⟨none, none, none, none⟩ false)
      = (.error ⟨422, renderErrs [atLeastOneErr]⟩, dbOne, []) :=
  (update_no_fields_amended envR dbOne 1 bkOld (by decide) false).1

theorem multipart_frame_fields (book b1 book' : Book) (t a d : Option String)
    (p : Option Dec)
    (hf : applyMultipartFields book t a d p = .ok b1)
    (hT : book'.title = b1.title) (hA : book'.author = b1.author)
    (hD : book'.description = b1.description) (hP : book'.price = b1.price)
    (hI : book'.id = b1.id) (hAc : book'.active = b1.active)
    (hC : book'.created_at = b1.created_at) :
    (t = none → book'.title = book.title) ∧
    (∀ s, t = some s → book'.title = collapseWS (pyStrip s)) ∧
    (a = none → book'.author = book.author) ∧
    (∀ s, a = some s → book'.author = collapseWS (pyStrip s)) ∧
    (d = none → book'.description = book.description) ∧
    (∀ s, d = some s → book'.description = collapseWS (pyStrip s)) ∧
    (p = none → book'.price = book.price) ∧
    (∀ v, p = some v → book'.price = quantize2 v) ∧
    book'.id = book.id ∧ book'.active = book.active ∧
    book'.created_at = book.created_at := by
  have hfo := applyMultipartFields_ok book t a d p b1 hf
  exact ⟨fun h => hT.trans (hfo.1 h),
    fun s hs => hT.trans (hfo.2.1 s hs),
    fun h => hA.trans (hfo.2.2.1 h),
    fun s hs => hA.trans (hfo.2.2.2.1 s hs),
    fun h => hD.trans (hfo.2.2.2.2.1 h),
    fun s hs => hD.trans (hfo.2.2.2.2.2.1 s hs),
    fun h => hP.trans (hfo.2.2.2.2.2.2.1 h),
    fun v hv => hP.trans (hfo.2.2.2.2.2.2.2.1 v hv),
    hI.trans hfo.2.2.2.2.2.2.2.2.2.1,
    hAc.trans hfo.2.2.2.2.2.2.2.2.2.2.1,
    hC.trans hfo.2.2.2.2.2.2.2.2.2.2.2⟩

theorem update_book_multipart_ok (env : Env) (db : DBState) (book : Book)
    (t a d : Option String) (p : Option Dec) (img : Option FileUpload)
    (rm : Bool) (book' : Book) (db' : DBState) (tr : List NetCall)
    (h : update_book_multipart env db book t a d p img rm
        = (.ok book', db', tr)) :
    (t = none → book'.title = book.title) ∧
    (∀ s, t = some s → book'.title = collapseWS (pyStrip s)) ∧
    (a = none → book'.author = book.author) ∧
    (∀ s, a = some s → book'.author = collapseWS (pyStrip s)) ∧
    (d = none → book'.description = book.description) ∧
    (∀ s, d = some s → book'.description = collapseWS (pyStrip s)) ∧
    (p = none → book'.price = book.price) ∧
    (∀ v, p = some v → book'.price = quantize2 v) ∧
    (img = none ∧ rm = false → book'.image = book.image) ∧
    book'.id = book.id ∧ book'.active = book.active ∧
    book'.created_at = book.created_at := by
  unfold update_book_multipart at h
  cases happ : applyMultipartFields book t a d p with
  | error e => rw [happ] at h; simp at h
  | ok b1 =>
    simp only [happ] at h
    unfold multipartImageStep at h
    split at h
    · -- remove_image with an existing image: rm was substituted to true
      have hc := commitUpdate_ok _ _ _ _ _ _ _ h
      have base := multipart_frame_fields book b1 book' t a d p happ
        hc.1 hc.2.1 hc.2.2.1 hc.2.2.2.1 hc.2.2.2.2.2.1 hc.2.2.2.2.2.2.1
        hc.2.2.2.2.2.2.2
      exact ⟨base.1, base.2.1, base.2.2.1, base.2.2.2.1, base.2.2.2.2.1,
        base.2.2.2.2.2.1, base.2.2.2.2.2.2.1, base.2.2.2.2.2.2.2.1,
        fun hni => absurd hni.2 (by decide),
        base.2.2.2.2.2.2.2.2.1, base.2.2.2.2.2.2.2.2.2.1,
        base.2.2.2.2.2.2.2.2.2.2⟩
    · split at h
      · -- no new file: the image is untouched
        have hc := commitUpdate_ok _ _ _ _ _ _ _ h
        have base := multipart_frame_fields book b1 book' t a d p happ
          hc.1 hc.2.1 hc.2.2.1 hc.2.2.2.1 hc.2.2.2.2.2.1 hc.2.2.2.2.2.2.1
          hc.2.2.2.2.2.2.2
        have himg : book'.image = book.image :=
          hc.2.2.2.2.1.trans
            (applyMultipartFields_ok book t a d p b1 happ).2.2.2.2.2.2.2.2.1
        exact ⟨base.1, base.2.1, base.2.2.1, base.2.2.2.1, base.2.2.2.2.1,
          base.2.2.2.2.2.1, base.2.2.2.2.2.2.1, base.2.2.2.2.2.2.2.1,
          fun _ => himg,
          base.2.2.2.2.2.2.2.2.1, base.2.2.2.2.2.2.2.2.2.1,
          base.2.2.2.2.2.2.2.2.2.2⟩
      · -- replacement upload
        split at h
        · simp at h
        · have hc := commitUpdate_ok _ _ _ _ _ _ _ h
          have base := multipart_frame_fields book b1 book' t a d p happ
            hc.1 hc.2.1 hc.2.2.1 hc.2.2.2.1 hc.2.2.2.2.2.1 hc.2.2.2.2.2.2.1
            hc.2.2.2.2.2.2.2
          exact ⟨base.1, base.2.1, base.2.2.1, base.2.2.2.1, base.2.2.2.2.1,
            base.2.2.2.2.2.1, base.2.2.2.2.2.2.1, base.2.2.2.2.2.2.2.1,
            fun hni => absurd hni.1 (by simp),
            base.2.2.2.2.2.2.2.2.1, base.2.2.2.2.2.2.2.2.2.1,
            base.2.2.2.2.2.2.2.2.2.2⟩

theorem update_book_json_ok (env : Env) (db : DBState) (book : Book)
    (payload : UpdateInput) (rm : Bool) (book' : Book) (db' : DBState)
    (tr : List NetCall)
    (h : update_book_json env db book payload rm = (.ok book', db', tr)) :
    (payload.title = none → book'.title = book.title) ∧
    (∀ s, payload.title = some s → book'.title = collapseWS (pyStrip s)) ∧
    (payload.author = none → book'.author = book.author) ∧
    (∀ s, payload.author = some s → book'.author = collapseWS (pyStrip s)) ∧
    (payload.description = none → book'.description = book.description) ∧
    (∀ s, payload.description = some s →
      book'.description = collapseWS (pyStrip s)) ∧
    (payload.price = none → book'.price = book.price) ∧
    (∀ v, payload.price = some v → book'.price = quantize2 v) ∧
    (rm = false → book'.image = book.image) ∧
    book'.id = book.id ∧ book'.active = book.active ∧
    book'.created_at = book.created_at := by
  unfold update_book_json at h
  cases hu : mkBookUpdateRequest payload with
  | error es => rw [hu] at h; simp at h
  | ok u =>
    obtain ⟨hot, hoa, hod, hop⟩ := mkBookUpdateRequest_ok payload u hu
    have hT := optText_ok "title" payload.title u.title hot
    have hA := optText_ok "author" payload.author u.author hoa
    have hD := optText_ok "description" payload.description u.description hod
    have hP := optPrice_ok payload.price u.price hop
    simp only [hu] at h
    have core : ∀ (hTitle : book'.title
          = match u.title with | some s => pyStrip s | none => book.title)
        (hAuthor : book'.author
          = match u.author with | some s => pyStrip s | none => book.author)
        (hDesc : book'.description
          = match u.description with
            | some s => pyStrip s | none => book.description)
        (hPrice : book'.price = u.price.getD book.price),
        (payload.title = none → book'.title = book.title) ∧
        (∀ s, payload.title = some s → book'.title = collapseWS (pyStrip s)) ∧
        (payload.author = none → book'.author = book.author) ∧
        (∀ s, payload.author = some s →
          book'.author = collapseWS (pyStrip s)) ∧
        (payload.description = none → book'.description = book.description) ∧
        (∀ s, payload.description = some s →
          book'.description = collapseWS (pyStrip s)) ∧
        (payload.price = none → book'.price = book.price) ∧
        (∀ v, payload.price = some v → book'.price = quantize2 v) := by
      intro hTitle hAuthor hDesc hPrice
      refine ⟨?_, ?_, ?_, ?_, ?_, ?_, ?_, ?_⟩
      · intro hn
        rw [hT.1 hn] at hTitle
        exact hTitle
      · intro s hs
        have h2 : book'.title = pyStrip (collapseWS (pyStrip s)) := by
          rw [hT.2 s hs] at hTitle
          exact hTitle
        rw [h2, pyStrip_collapseWS_pyStrip]
      · intro hn
        rw [hA.1 hn] at hAuthor
        exact hAuthor
      · intro s hs
        have h2 : book'.author = pyStrip (collapseWS (pyStrip s)) := by
          rw [hA.2 s hs] at hAuthor
          exact hAuthor
        rw [h2, pyStrip_collapseWS_pyStrip]
      · intro hn
        rw [hD.1 hn] at hDesc
        exact hDesc
      · intro s hs
        have h2 : book'.description = pyStrip (collapseWS (pyStrip s)) := by
          rw [hD.2 s hs] at hDesc
          exact hDesc
        rw [h2, pyStrip_collapseWS_pyStrip]
      · intro hn
        rw [hP.1 hn] at hPrice
        exact hPrice
      · intro v hv
        rw [hP.2 v hv] at hPrice
        exact hPrice
    split at h
    · -- remove_image with an existing image (rm substituted to true)
      have hc := commitUpdate_ok _ _ _ _ _ _ _ h
      have base := core hc.1 hc.2.1 hc.2.2.1 hc.2.2.2.1
      exact ⟨base.1, base.2.1, base.2.2.1, base.2.2.2.1, base.2.2.2.2.1,
        base.2.2.2.2.2.1, base.2.2.2.2.2.2.1, base.2.2.2.2.2.2.2,
        fun hrm => absurd hrm (by decide),
        hc.2.2.2.2.2.1, hc.2.2.2.2.2.2.1, hc.2.2.2.2.2.2.2⟩
    · have hc := commitUpdate_ok _ _ _ _ _ _ _ h
      have base := core hc.1 hc.2.1 hc.2.2.1 hc.2.2.2.1
      exact ⟨base.1, base.2.1, base.2.2.1, base.2.2.2.1, base.2.2.2.2.1,
        base.2.2.2.2.2.1, base.2.2.2.2.2.2.1, base.2.2.2.2.2.2.2,
        fun _ => hc.2.2.2.2.1,
        hc.2.2.2.2.2.1, hc.2.2.2.2.2.2.1, hc.2.2.2.2.2.2.2⟩

/-- C4: an update of an existing active record with at least one field
present succeeds applying exactly the present fields; absent fields
(title, author, description, price) and, when no image action is
requested, the image, keep their previous values on both encodings. -/
theorem update_book_frame (env : Env) (db : DBState) (id : Nat)
    (body : UpdateBody) (book book' : Book) (db' : DBState) (tr : List NetCall)
    (hfind : findActive db id = some book)
    (h : update_book env db id body = (.ok book', db', tr)) :
    (updTitle body = none → book'.title = book.title) ∧
    (∀ s, updTitle body = some s → book'.title = collapseWS (pyStrip s)) ∧
    (updAuthor body = none → book'.author = book.author) ∧
    (∀ s, updAuthor body = some s → book'.author = collapseWS (pyStrip s)) ∧
    (updDescription body = none → book'.description = book.description) ∧
    (∀ s, updDescription body = some s →
      book'.description = collapseWS (pyStrip s)) ∧
    (updPrice body = none → book'.price = book.price) ∧
    (∀ v, updPrice body = some v → book'.price = quantize2 v) ∧
    (noImageAction body → book'.image = book.image) ∧
    book'.id = book.id ∧ book'.active = book.active ∧
    book'.created_at = book.created_at := by
  cases body with
  | jsonBody payload rm =>
    have hj : update_book_json env db book payload rm = (.ok book', db', tr) := by
      have hred : update_book env db id (.jsonBody payload rm)
          = update_book_json env db book payload rm := by
        unfold update_book
        rw [hfind]
      rw [← hred]
      exact h
    exact update_book_json_ok env db book payload rm book' db' tr hj
  | multipartBody t a d p img rm =>
    have hm : update_book_multipart env db book t a d p img rm
        = (.ok book', db', tr) := by
      have hred : update_book env db id (.multipartBody t a d p img rm)
          = update_book_multipart env db book t a d p img rm := by
        unfold update_book
        rw [hfind]
      rw [← hred]
      exact h
    exact update_book_multipart_ok env db book t a d p img rm book' db' tr hm
  | otherBody =>
    have hred : update_book env db id .otherBody
        = (.error ⟨415,
            "Unsupported Media Type. Use application/json or multipart/form-data."⟩,
           db, []) := by
      unfold update_book
      rw [hfind]
    rw [hred] at h
    simp at h

/-- The record after updating only the title of `bkOld`. -/
def bkUpd : Book :=
  ⟨1, "New Title", "Old Author", "Old Desc", ⟨1099, -2⟩, true, none, 1, 10⟩

/-- C4 witness: a JSON update carrying only a title leaves the author
unchanged and stores the normalized title. -/
theorem update_book_frame_witness :
    bkUpd.author = bkOld.author ∧
      bkUpd.title = collapseWS (pyStrip "New Title") :=
  ⟨(update_book_frame envR dbOne 1
      (.jsonBody ⟨some "New Title", none, none, none⟩ false) bkOld bkUpd
      ⟨[bkUpd], 2, 10⟩ [] (by decide) (by decide)).2.2.1 rfl,
   (update_book_frame envR dbOne 1
      (.jsonBody ⟨some "New Title", none, none, none⟩ false) bkOld bkUpd
      ⟨[bkUpd], 2, 10⟩ [] (by decide) (by decide)).2.1 "New Title" rfl⟩

/-- C7: a successful delete flips the row to `active = false` but keeps
it in the store (hypothesis `hdead` pins every other attribute), and
afterwards Get, List, Update and a second Delete on the id behave as if
the record did not exist: 404 / excluded from every list answer. -/
theorem soft_delete_semantics (env : Env) (db : DBState) (id : Nat)
    (book dead : Book) (db' : DBState)
    (hfind : findActive db id = some book)
    (hdead : dead = { book with active := false, updated_at := db.now })
    (hdb' : db' = commitRow db dead) :
    (delete_book env db id).1
        = .ok ("Book with ID " ++ toString book.id
            ++ " was deleted successfully") ∧
    (delete_book env db id).2.1 = db' ∧
    dead ∈ db'.rows ∧ dead.active = false ∧ dead.id = book.id ∧
    findActive db' id = none ∧
    get_book db' id = .error ⟨404, "Book not found"⟩ ∧
    (∀ body, update_book env db' id body
        = (.error ⟨404, "Book not found"⟩, db', [])) ∧
    (delete_book env db' id).1 = .error ⟨404, "Book not found"⟩ ∧
    (∀ limit offset res, listQueryResult db' limit offset res →
      ∀ b ∈ res, b.id ≠ id) := by
  subst hdead
  subst hdb'
  have hb := findActive_some db id book hfind
  have hred : delete_book env db id
      = (.ok ("Book with ID " ++ toString book.id
            ++ " was deleted successfully"),
         commitRow db { book with active := false, updated_at := db.now },
         oldImageTrace env book) := by
    unfold delete_book
    rw [hfind]
  have hnone : findActive
      (commitRow db { book with active := false, updated_at := db.now }) id
      = none :=
    findActive_commitRow_inactive db _ id (by simpa using hb.2.1) rfl
  refine ⟨by rw [hred], by rw [hred], ?_, rfl, rfl, hnone, ?_, ?_, ?_, ?_⟩
  · exact mem_commitRow_of_id db _ book hb.1 rfl
  · unfold get_book
    rw [hnone]
  · intro body
    unfold update_book
    rw [hnone]
  · unfold delete_book
    rw [hnone]
  · intro limit offset res hres b hbm hbid
    have hm := listQueryResult_mem _ _ _ _ hres b hbm
    rcases mem_commitRow db _ b hm.1 with hbd | ⟨-, hne⟩
    · have : b.active = true := hm.2
      rw [hbd] at this
      simp at this
    · exact hne (by simpa using hbid.trans hb.2.1.symm)

/-- The soft-deleted row of `bkOld`. -/
def bkDead : Book :=
  ⟨1, "Old Title", "Old Author", "Old Desc", ⟨1099, -2⟩, false, none, 1, 10⟩

/-- C7 witness: deleting the one active book. -/
theorem soft_delete_semantics_witness :
    (delete_book envR dbOne 1).1
        = .ok ("Book with ID " ++ toString bkOld.id
            ++ " was deleted successfully") ∧
    findActive (commitRow dbOne bkDead) 1 = none :=
  ⟨(soft_delete_semantics envR dbOne 1 bkOld bkDead (commitRow dbOne bkDead)
      (by decide) (by decide) rfl).1,
   (soft_delete_semantics envR dbOne 1 bkOld bkDead (commitRow dbOne bkDead)
      (by decide) (by decide) rfl).2.2.2.2.2.1⟩

/-- C8 as stated fails: a body-level validation failure (an empty title
on the JSON create path) is caught as a `ValueError`, re-raised as an
`HTTPException` and rendered by `http_exception_handler` with an empty
`details` object — no `details.validation_errors` entry, although a
field was violated. -/
theorem body_validation_details_empty_cex :
    (create_book envR dbEmpty
        (.jsonBody ⟨some "", some "A", some "D", some ⟨1099, -2⟩⟩)).1
      = .error ⟨422, "title: String should have at least 1 character"⟩ ∧
    http_exception_handler
        ⟨422, "title: String should have at least 1 character"⟩
      = ⟨"title: String should have at least 1 character",
         ErrDetails.emptyDetails⟩ ∧
    hasValidationErrors
      (http_exception_handler
        ⟨422, "title: String should have at least 1 character"⟩).details
      = false :=
  ⟨by decide, rfl, rfl⟩

/-- C8 amended: failures raised while parsing the request parameters
(the `RequestValidationError` handler) do return a structured body
whose `details.validation_errors` lists one entry per violated
parameter — all of them; body-model failures inside create/update are
rendered with an empty `details` object instead. -/
theorem param_validation_errors_rendered (limit offset : Int)
    (errs : List FieldError)
    (h : validateListParams limit offset = .error errs) :
    validation_exception_handler errs
        = ⟨"Validation failed", .validationErrors errs⟩ ∧
    hasValidationErrors (validation_exception_handler errs).details = true ∧
    errs ≠ [] ∧
    (limit < 1 →
      FieldError.mk "limit" "Input should be greater than or equal to 1"
        ∈ errs) ∧
    (100 < limit →
      FieldError.mk "limit" "Input should be less than or equal to 100"
        ∈ errs) ∧
    (offset < 0 →
      FieldError.mk "offset" "Input should be greater than or equal to 0"
        ∈ errs) ∧
    (∀ l o : Option Int, l.getD 20 = limit → o.getD 0 = offset →
      list_params_stage l o
        = .error ⟨"Validation failed", .validationErrors errs⟩) := by
  have horig := h
  unfold validateListParams at h
  split at h
  · simp at h
  · rename_i hne
    have herrs : errs = listParamErrs limit offset := by
      simpa using h.symm
    refine ⟨rfl, rfl, ?_, ?_, ?_, ?_, ?_⟩
    · intro hnil
      rw [hnil] at herrs
      apply hne
      rw [← herrs]
      rfl
    · intro h1
      rw [herrs]
      unfold listParamErrs
      rw [if_pos h1]
      simp
    · intro h2
      rw [herrs]
      unfold listParamErrs
      rw [if_pos h2]
      simp
    · intro h3
      rw [herrs]
      unfold listParamErrs
      rw [if_pos h3]
      simp
    · intro l o hl ho
      unfold list_params_stage
      rw [hl, ho]
      simp only [horig]
      rfl

/-- C8 amended witness: `limit = 0` and `offset = -1` violated
together; both entries appear. -/
theorem param_validation_errors_rendered_witness :
    hasValidationErrors (validation_exception_handler
      [⟨"limit", "Input should be greater than or equal to 1"⟩,
       ⟨"offset", "Input should be greater than or equal to 0"⟩]).details
      = true :=
  (param_validation_errors_rendered 0 (-1)
    [⟨"limit", "Input should be greater than or equal to 1"⟩,
     ⟨"offset", "Input should be greater than or equal to 0"⟩]
    (by decide)).2.1

/-- C9 as stated fails: replacing the image of a record that already
has one issues the best-effort destroy call for the old image before
the new file is validated, so a request rejected for its content type
has already caused a network call to the media host. -/
theorem invalid_replace_contacts_host_cex :
    upload_book_image envR dbImg 1 badFile
        = (.error ⟨400, "Invalid image type"⟩, dbImg,
           [NetCall.destroy "book_cover_1"]) ∧
    ([NetCall.destroy "book_cover_1"] : List NetCall) ≠ [] :=
  ⟨by decide, by decide⟩

theorem upload_not_mem_oldImageTrace (env : Env) (b : Book) :
    NetCall.upload ∉ oldImageTrace env b := by
  unfold oldImageTrace
  cases b.image with
  | none => simp
  | some old =>
    unfold delete_image_from_cloudinary
    by_cases hr : env.cloudinary_ready
    · simp [hr]
    · simp [hr]

/-- C9 amended: a file whose content type is not allow-listed or whose
size exceeds the ceiling is rejected with a client error (400) before
the upload call is made — the invalid bytes never reach the media host
and the store is unchanged; only the best-effort destroy of an existing
image may precede the rejection on a replace. -/
theorem invalid_upload_never_uploaded (env : Env) (file : FileUpload)
    (hready : env.cloudinary_ready = true)
    (hbad : env.allowed_image_types.contains file.content_type = false ∨
      env.max_image_size < file.size) :
    ((upload_image_to_cloudinary env file).2 = [] ∧
      errStatus (upload_image_to_cloudinary env file).1 = some 400) ∧
    (∀ (db : DBState) (id : Nat),
      NetCall.upload ∉ (upload_book_image env db id file).2.2 ∧
      (upload_book_image env db id file).2.1 = db ∧
      errStatus (upload_book_image env db id file).1 ≠ none) ∧
    (∀ (db : DBState) (id : Nat) (t a d : Option String) (p : Option Dec),
      NetCall.upload
        ∉ (update_book env db id (.multipartBody t a d p (some file) false)).2.2 ∧
      (update_book env db id (.multipartBody t a d p (some file) false)).2.1
        = db ∧
      errStatus
        (update_book env db id (.multipartBody t a d p (some file) false)).1
        ≠ none) := by
  have hcore : ∃ msg, upload_image_to_cloudinary env file
      = (.error ⟨400, msg⟩, []) := by
    unfold upload_image_to_cloudinary
    rw [hready]
    by_cases hct : env.allowed_image_types.contains file.content_type
    · have hmem : file.content_type ∈ env.allowed_image_types := by
        simpa using hct
      have hsz : env.max_image_size < file.size := by
        rcases hbad with hbad | hbad
        · rw [hct] at hbad
          simp at hbad
        · exact hbad
      exact ⟨"Image size too large", by simp [hmem, hsz]⟩
    · have hmem : file.content_type ∉ env.allowed_image_types := by
        simpa using hct
      exact ⟨"Invalid image type", by simp [hmem]⟩
  obtain ⟨msg, hm⟩ := hcore
  refine ⟨by rw [hm]; exact ⟨rfl, rfl⟩, ?_, ?_⟩
  · intro db id
    cases hfind : findActive db id with
    | none =>
      have hred : upload_book_image env db id file
          = (.error ⟨404, "Book not found"⟩, db, []) := by
        unfold upload_book_image
        rw [hfind]
      rw [hred]
      exact ⟨by simp, rfl, by simp [errStatus]⟩
    | some book =>
      have hred : upload_book_image env db id file
          = (.error ⟨400, msg⟩, db, oldImageTrace env book ++ []) := by
        unfold upload_book_image
        rw [hfind]
        simp only [hm]
      rw [hred]
      refine ⟨?_, rfl, by simp [errStatus]⟩
      rw [List.append_nil]
      exact upload_not_mem_oldImageTrace env book
  · intro db id t a d p
    cases hfind : findActive db id with
    | none =>
      have hred : update_book env db id (.multipartBody t a d p (some file) false)
          = (.error ⟨404, "Book not found"⟩, db, []) := by
        unfold update_book
        rw [hfind]
      rw [hred]
      exact ⟨by simp, rfl, by simp [errStatus]⟩
    | some book =>
      have hred0 : update_book env db id (.multipartBody t a d p (some file) false)
          = update_book_multipart env db book t a d p (some file) false := by
        unfold update_book
        rw [hfind]
      rw [hred0]
      cases happ : applyMultipartFields book t a d p with
      | error e =>
        have hred : update_book_multipart env db book t a d p (some file) false
            = (.error ⟨422, renderErrs [e]⟩, db, []) := by
          unfold update_book_multipart
          rw [happ]
        rw [hred]
        exact ⟨by simp, rfl, by simp [errStatus]⟩
      | ok b1 =>
        have hred : update_book_multipart env db book t a d p (some file) false
            = (.error ⟨400, msg⟩, db, oldImageTrace env b1 ++ []) := by
          unfold update_book_multipart
          simp only [happ]
          unfold multipartImageStep
          cases b1.image <;> simp only [hm]
        rw [hred]
        refine ⟨?_, rfl, by simp [errStatus]⟩
        rw [List.append_nil]
        exact upload_not_mem_oldImageTrace env b1

/-- C9 amended witness: the disallowed content type. -/
theorem invalid_upload_never_uploaded_witness :
    (upload_image_to_cloudinary envR badFile).2 = [] ∧
      errStatus (upload_image_to_cloudinary envR badFile).1 = some 400 :=
  (invalid_upload_never_uploaded envR badFile rfl (Or.inl (by decide))).1

end Books
